import Mathlib

/-!
Verification of the outbound egress dispatcher and proxy pool of the
ak-proxy repository, against its natural-language specification.

The development shallowly embeds the relevant Python code:

* `src/transparent_proxy/outbound_dispatcher.py`
  (`OutboundExit`, `OutboundDispatcher`: exit selection, login quota
  two-phase reservation, forwarding with 403/429 reaction and direct
  fallback, adaptive throttling);
* `src/monitor/proxy_pool.py`
  (`ProxySlot.start`/`stop`, the hot-standby ready pool
  `_fill_ready_pool`, `_next_node`).

Modelling conventions:

* Wall-clock time (`time.time()`) is an explicit integer parameter
  `now`; every operation that reads the clock takes it as an argument.
  Network requests are treated as instantaneous; the only modelled time
  advance is the deliberate rate-limit wait of `wait_for_rate`. On
  integer-valued sample times the 0.05-second strictness guard of
  `wait_for_rate` is a no-op (a stamp strictly newer than the expiring
  one is at least one unit newer), so the model drops it; every windowed
  count and ordering comparison is otherwise verbatim.
* Python lists of timestamps become `List Int`; dictionaries keyed by
  `host:port` become association lists over `String`.
* The outcome of a network request (response status, transport error, or
  task cancellation) is an oracle value passed to `forward`; the outcome
  of testing a candidate node is an oracle function passed to the
  ready-pool filler; the behaviour of the tunnel subprocess is an
  explicit environment record passed to `slotStart`.
* `int(x * 0.9)` on a non-negative Python int `x` is modelled as
  `9 * x / 10` (truncating division): the double-precision product
  `x * 0.9` rounds to a value whose truncation agrees with the exact
  rational truncation at every magnitude reachable here.
* Exceptions never escape the embedded functions, mirroring the
  try/except wrappers of the source: all definitions are total, and
  fallible operations return explicit results.
-/

namespace AkProxy

/-! ## Exit model (`OutboundExit`) -/

/-- One egress path of `OutboundDispatcher`: the direct connection
(`proxy_url = none`) or a sing-box SOCKS5 tunnel (`proxy_url = some url`).
Fields mirror `OutboundExit.__slots__`; `_login_timestamps`,
`_error_logs`, `_req_timestamps`, `_inflight_logins`, `_frozen_until`
drop the leading underscore. The source's `_rate_lock` (an asyncio mutex)
has no observable pure content and is omitted; error-log entries keep
only the message (the source also stores a wall-clock string). -/
structure Exit where
  name : String
  proxy_url : Option String
  healthy : Bool
  total : Nat
  login_count : Nat
  errors : Nat
  warn_403 : Nat
  warn_429 : Nat
  active : Int
  exit_ip : String
  login_timestamps : List Int
  error_logs : List String
  req_timestamps : List Int
  rate_limit : Int
  inflight_logins : Nat
  frozen_until : Int
  deriving Repr, DecidableEq

/-- `OutboundExit.__init__`. -/
def initExit (name : String) (proxy : Option String) : Exit where
  name := name
  proxy_url := proxy
  healthy := true
  total := 0
  login_count := 0
  errors := 0
  warn_403 := 0
  warn_429 := 0
  active := 0
  exit_ip := ""
  login_timestamps := []
  error_logs := []
  req_timestamps := []
  rate_limit := 0
  inflight_logins := 0
  frozen_until := 0

namespace Exit

/-- `OutboundExit.is_direct`. -/
def is_direct (e : Exit) : Bool := e.proxy_url.isNone

/-- `OutboundExit.is_frozen`: `time.time() < self._frozen_until`. -/
def is_frozen (now : Int) (e : Exit) : Bool := decide (now < e.frozen_until)

/-- `OutboundExit.freeze_for_403`. -/
def freeze_for_403 (now : Int) (duration : Int) (e : Exit) : Exit :=
  { e with frozen_until := now + duration }

/-- The in-place pruning of `_login_timestamps` performed by
`count_recent_logins` (window 60). -/
def pruneLogins (now : Int) (e : Exit) : Exit :=
  { e with login_timestamps := e.login_timestamps.filter (fun t => decide (now - 60 < t)) }

/-- The value returned by `OutboundExit.count_recent_logins` (window 60):
recent confirmed logins plus in-flight reservations. The pruning this
method also performs is `pruneLogins`; pruning does not change this
value, so callers thread the two separately. -/
def count_recent_logins (now : Int) (e : Exit) : Nat :=
  (e.login_timestamps.filter (fun t => decide (now - 60 < t))).length + e.inflight_logins

/-- `OutboundExit.reserve_login` (phase 1). -/
def reserve_login (e : Exit) : Exit :=
  { e with inflight_logins := e.inflight_logins + 1, login_count := e.login_count + 1 }

/-- `OutboundExit.confirm_login` (phase 2): `max(0, inflight - 1)` is
saturating `Nat` subtraction; the response timestamp is appended. -/
def confirm_login (now : Int) (e : Exit) : Exit :=
  { e with inflight_logins := e.inflight_logins - 1
         , login_timestamps := e.login_timestamps ++ [now] }

/-- `OutboundExit.cancel_login`. -/
def cancel_login (e : Exit) : Exit :=
  { e with inflight_logins := e.inflight_logins - 1 }

/-- `OutboundExit.record_request`. -/
def record_request (now : Int) (e : Exit) : Exit :=
  { e with total := e.total + 1, req_timestamps := e.req_timestamps ++ [now] }

/-- The pruning of `_req_timestamps` performed by
`OutboundExit.get_current_rpm` (window 60). -/
def pruneReqs (now : Int) (e : Exit) : Exit :=
  { e with req_timestamps := e.req_timestamps.filter (fun t => decide (now - 60 < t)) }

/-- The value returned by `OutboundExit.get_current_rpm` (window 60). -/
def get_current_rpm (now : Int) (e : Exit) : Nat :=
  (e.req_timestamps.filter (fun t => decide (now - 60 < t))).length

/-- `OutboundExit.auto_throttle_on_403`. Unthrottled exits adopt 90% of
the observed rpm when that rpm exceeds 5 (otherwise nothing changes);
throttled exits step down 10%, floored at 5, and only if that lowers the
limit. `Int.tdiv` matches Python `int()` truncation toward zero. -/
def auto_throttle_on_403 (now : Int) (e : Exit) : Exit :=
  if e.rate_limit = 0 then
    let e1 := e.pruneReqs now
    let rpm := e.get_current_rpm now
    if 5 < rpm then
      { e1 with rate_limit := max 5 ((9 * (rpm : Int)).tdiv 10) }
    else e1
  else
    let newLimit := max 5 ((9 * e.rate_limit).tdiv 10)
    if newLimit < e.rate_limit then { e with rate_limit := newLimit } else e

/-- `OutboundExit.record_error`: bump the counter and append to the
bounded error ring (last 50 entries kept). -/
def record_error (msg : String) (e : Exit) : Exit :=
  let logs := e.error_logs ++ [if msg = "" then "unknown error" else msg]
  { e with errors := e.errors + 1
         , error_logs := if 50 < logs.length then logs.drop (logs.length - 50) else logs }

/-- First element of a nonempty rational list (`min(...)` of the source
is `listMin`; the `0` default is unreachable at call sites). -/
def listMin : List Int → Int
  | [] => 0
  | t :: ts => ts.foldl min t

end Exit

/-- The waiting loop of `OutboundExit.wait_for_rate`: prune the request
window; if the windowed count is below the limit, proceed; otherwise
sleep until the oldest stamp leaves the window and retry (the source
adds a 0.05s strictness guard, vacuous on integer times). Each sleep expels at least the oldest stamp, so the list
length bounds the iterations; `fuel` makes that structural. Returns the
clock value at which the request proceeds and the pruned window. -/
def waitLoop (limit : Int) : Nat → Int → List Int → Int × List Int
  | 0, now, tss => (now, tss)
  | fuel + 1, now, tss =>
    let pruned := tss.filter (fun t => decide (now - 60 < t))
    if (pruned.length : Int) < limit then (now, pruned)
    else
      let oldest := Exit.listMin pruned
      let waitTime := oldest + 60 - now
      if 0 < waitTime then waitLoop limit fuel (now + waitTime) pruned
      else (now, pruned)

/-- `OutboundExit.wait_for_rate`: no-op when unthrottled, else run the
waiting loop. Returns the clock value after the wait and the exit with
its pruned request window. -/
def wait_for_rate (now : Int) (e : Exit) : Int × Exit :=
  if e.rate_limit ≤ 0 then (now, e)
  else
    let p := waitLoop e.rate_limit (e.req_timestamps.length + 1) now e.req_timestamps
    (p.1, { e with req_timestamps := p.2 })

/-! ## Dispatcher model (`OutboundDispatcher`) -/

/-- Placeholder exit used by the total list accessors; out-of-range
indices never occur in the theorems (they carry `i < exits.length`). -/
def dfltExit : Exit := initExit "direct" none

/-- `OutboundDispatcher` state: the ordered exits (slot 0 is the direct
exit at construction) and the mutable class attribute
`MAX_LOGIN_PER_MIN` (adjustable via `set_max_login_per_min`). -/
structure Dispatcher where
  exits : List Exit
  maxLoginPerMin : Nat
  deriving Repr, DecidableEq

/-- `OutboundDispatcher.__init__`: one direct exit, quota 10/min. -/
def initDispatcher : Dispatcher where
  exits := [initExit "direct" none]
  maxLoginPerMin := 10

namespace Dispatcher

/-- Read the exit object at slot `i`. -/
def getExit (d : Dispatcher) (i : Nat) : Exit := d.exits.getD i dfltExit

/-- Mutate the exit object at slot `i` (no-op out of range, which never
occurs at call sites). -/
def updExit (d : Dispatcher) (i : Nat) (f : Exit → Exit) : Dispatcher :=
  { d with exits := d.exits.set i (f (d.exits.getD i dfltExit)) }

/-- `OutboundDispatcher.add_socks5`: append a tunnel exit, return its
index. -/
def add_socks5 (d : Dispatcher) (name : String) (port : Nat) : Dispatcher × Nat :=
  let d1 := { d with exits := d.exits ++ [initExit name (some ("socks5://127.0.0.1:" ++ toString port))] }
  (d1, d1.exits.length - 1)

/-- `OutboundDispatcher.remove_exit`: refuse slot 0 and out-of-range
slots, else delete the slot. -/
def remove_exit (d : Dispatcher) (i : Nat) : Dispatcher × Bool :=
  if i = 0 ∨ d.exits.length ≤ i then (d, false)
  else ({ d with exits := d.exits.eraseIdx i }, true)

/-- `OutboundDispatcher.set_max_login_per_min`. -/
def set_max_login_per_min (d : Dispatcher) (v : Nat) : Dispatcher × Bool :=
  if v < 1 then (d, false) else ({ d with maxLoginPerMin := v }, true)

/-- `OutboundDispatcher.set_rate_limit`: clamp at 0, refuse bad index. -/
def set_rate_limit (d : Dispatcher) (i : Nat) (limit : Int) : Dispatcher × Bool :=
  if i < d.exits.length then (d.updExit i (fun e => { e with rate_limit := max 0 limit }), true)
  else (d, false)

/-- `OutboundDispatcher._get_healthy`: indices of exits that are healthy
and not frozen. -/
def getHealthy (now : Int) (d : Dispatcher) : List Nat :=
  (List.range d.exits.length).filter
    (fun i => (d.getExit i).healthy && !((d.getExit i).is_frozen now))

/-- `min(pool, key=f)` of Python: the first element attaining the least
key. -/
def minByFirst {α β : Type} [LinearOrder β] (f : α → β) : List α → Option α
  | [] => none
  | x :: xs => some (xs.foldl (fun b a => if f a < f b then a else b) x)

/-- `OutboundDispatcher.pick_login_exit`. Healthy-set empty degrades to
the direct exit (slot 0) with no state change; otherwise the
under-quota candidates (preferring unthrottled exits, then least
active) receive the two-phase reservation; if every healthy exit is at
quota, the one with the fewest recent logins is used anyway. The
candidate scan's `count_recent_logins` calls prune each healthy exit's
login window (`pruneLogins`); the key lookups of the final `min` repeat
that pruning, a no-op at the same instant. Returns the new state and
the chosen slot. -/
def pick_login_exit (now : Int) (d : Dispatcher) : Dispatcher × Nat :=
  let healthy := getHealthy now d
  if healthy.isEmpty then (d, 0)
  else
    let d1 := healthy.foldl (fun acc i => acc.updExit i (Exit.pruneLogins now)) d
    let candidates := healthy.filter
      (fun i => decide (Exit.count_recent_logins now (d1.getExit i) < d.maxLoginPerMin))
    if candidates.isEmpty then
      let best := (minByFirst (fun i => Exit.count_recent_logins now (d1.getExit i)) healthy).getD 0
      (d1.updExit best (fun e => (e.reserve_login).record_request now), best)
    else
      let unrestricted := candidates.filter (fun i => decide ((d1.getExit i).rate_limit = 0))
      let pool := if unrestricted.isEmpty then candidates else unrestricted
      let best := (minByFirst (fun i => (d1.getExit i).active) pool).getD 0
      (d1.updExit best (fun e => (e.reserve_login).record_request now), best)

/-- `OutboundDispatcher.pick_api_exit`: least-active among healthy,
preferring unthrottled exits; degrade to the direct exit when the
healthy set is empty. -/
def pick_api_exit (now : Int) (d : Dispatcher) : Dispatcher × Nat :=
  let healthy := getHealthy now d
  if healthy.isEmpty then (d, 0)
  else
    let unrestricted := healthy.filter (fun i => decide ((d.getExit i).rate_limit = 0))
    let pool := if unrestricted.isEmpty then healthy else unrestricted
    let best := (minByFirst (fun i => (d.getExit i).active) pool).getD 0
    (d.updExit best (Exit.record_request now), best)

/-- `OutboundDispatcher._check_alert_status`: 403 bumps `warn_403`,
freezes the exit for 60s and throttles; 429 bumps `warn_429` and
throttles; every other status (including 503, which is in
`ALERT_STATUS_CODES` but only logged) leaves the exit unchanged. -/
def checkAlertStatus (now : Int) (e : Exit) (status : Nat) : Exit :=
  if status = 403 then
    Exit.auto_throttle_on_403 now
      (Exit.freeze_for_403 now 60 { e with warn_403 := e.warn_403 + 1 })
  else if status = 429 then
    Exit.auto_throttle_on_403 now { e with warn_429 := e.warn_429 + 1 }
  else e

/-- Outcome of one `_do_request` attempt, supplied by the network
oracle: an HTTP response with a status code, a transport exception
(anything `except Exception` catches), or task cancellation
(`asyncio.CancelledError`, which skips `except Exception` but still
runs `finally`). -/
inductive Outcome
  | resp (status : Nat)
  | err
  | cancelled
  deriving Repr, DecidableEq

/-- Result of `OutboundDispatcher.forward` as seen by the caller. -/
inductive FwdResult
  | ok (status : Nat)
  | err
  | cancelled
  deriving Repr, DecidableEq

/-- `OutboundDispatcher.forward` through the exit at slot `i`:
rate-limit wait, `active` bracketing, status-code alerting, and the
single direct-exit retry on transport failure of a tunnel exit.
`o1` is the outcome of the attempt through slot `i`, `o2` the outcome
of the direct retry (consulted only when that retry happens). Returns
the clock after the rate wait, the new state, the caller-visible
result, and the list of slots through which `_do_request` was
attempted, in order. -/
def forward (now : Int) (d : Dispatcher) (i : Nat) (o1 o2 : Outcome) :
    Int × Dispatcher × FwdResult × List Nat :=
  let now1 := (wait_for_rate now (d.getExit i)).1
  let d1 := d.updExit i (fun e => (wait_for_rate now e).2)
  let d2 := d1.updExit i (fun e => { e with active := e.active + 1 })
  match o1 with
  | .resp s =>
    let d3 := d2.updExit i (fun e => checkAlertStatus now1 e s)
    (now1, d3.updExit i (fun e => { e with active := e.active - 1 }), .ok s, [i])
  | .cancelled =>
    (now1, d2.updExit i (fun e => { e with active := e.active - 1 }), .cancelled, [i])
  | .err =>
    let d3 := d2.updExit i (Exit.record_error "")
    if (d3.getExit i).is_direct then
      (now1, d3.updExit i (fun e => { e with active := e.active - 1 }), .err, [i])
    else
      let d4 := d3.updExit 0 (fun e => { e with active := e.active + 1 })
      match o2 with
      | .resp s =>
        let d5 := d4.updExit 0 (fun e => checkAlertStatus now1 e s)
        let d6 := d5.updExit 0 (fun e => { e with active := e.active - 1 })
        (now1, d6.updExit i (fun e => { e with active := e.active - 1 }), .ok s, [i, 0])
      | .err =>
        let d5 := d4.updExit 0 (Exit.record_error "")
        let d6 := d5.updExit 0 (fun e => { e with active := e.active - 1 })
        (now1, d6.updExit i (fun e => { e with active := e.active - 1 }), .err, [i, 0])
      | .cancelled =>
        let d5 := d4.updExit 0 (fun e => { e with active := e.active - 1 })
        (now1, d5.updExit i (fun e => { e with active := e.active - 1 }), .cancelled, [i, 0])

end Dispatcher

/-! ## Proxy pool model (`src/monitor/proxy_pool.py`) -/

/-- A candidate egress target from the node catalog. The protocol
payload of the source dict is irrelevant to the verified properties and
is dropped; `host`/`port` form the identity key, `name` the label. -/
structure Node where
  name : String
  host : String
  port : Nat
  deriving Repr, DecidableEq

/-- `ProxyPool._node_key`. -/
def nodeKey (n : Node) : String := n.host ++ ":" ++ toString n.port

/-- One `_node_scores` entry. -/
structure Score where
  verified : Bool
  lastTest : Int
  latency : Int
  failCount : Nat
  deriving Repr, DecidableEq

/-- `_node_scores` as an association list keyed by `host:port`. -/
def Scores := List (String × Score)
  deriving Repr, DecidableEq

/-- Dictionary read (`self._node_scores.get(key)`). -/
def scoresGet (sc : Scores) (k : String) : Option Score :=
  (List.find? (fun p => p.1 = k) sc).map Prod.snd

/-- Dictionary write (`self._node_scores[key] = ...`). -/
def scoresSet (sc : Scores) (k : String) (v : Score) : Scores :=
  List.filter (fun p => !(p.1 = k : Bool)) sc ++ [(k, v)]

/-- The subprocess state of a `ProxySlot`: `none` when no process
handle is held, `some true` while `poll()` reports the process alive,
`some false` once it has exited. -/
structure ProxySlot where
  slotId : Nat
  socksPort : Nat
  process : Option Bool
  node : Option Node
  nodeName : String
  deriving Repr, DecidableEq

namespace ProxySlot

/-- `ProxySlot.alive`. -/
def alive (s : ProxySlot) : Bool := s.process = some true

/-- `ProxySlot.stop`: terminate/kill the subprocess, clear the handle,
wait for the port to be released, delete the config file. Only the
handle clearing is observable in the model. -/
def stop (s : ProxySlot) : ProxySlot := { s with process := none }

/-- How the environment behaves when `ProxySlot.start` launches the
tunnel binary. -/
inductive LaunchOutcome
  | fileNotFound
  | exception
  | launched (aliveAfterWait : Bool)
  deriving Repr, DecidableEq

/-- Environment observed by one `ProxySlot.start` call:
whether `_is_port_free` succeeds before launching, how the `Popen`
launch and the 2-second startup wait go, and whether a local TCP
connect to the bound SOCKS port would succeed after startup. The
source never consults `connectAfterOk`: it is recorded here so that
specification-level success criteria can be compared against the
code's. -/
structure StartEnv where
  portFreeBefore : Bool
  launch : LaunchOutcome
  connectAfterOk : Bool
  deriving Repr, DecidableEq

/-- `ProxySlot.start`: stop any previous process, bind the node, write
the config (not modelled), refuse an occupied port, launch, wait the
startup interval, and treat a still-alive process as success. Every
failure path clears the process handle and returns `false`; no
exception escapes (`FileNotFoundError` and the generic handler are the
last two `LaunchOutcome` cases). -/
def start (s : ProxySlot) (n : Node) (env : StartEnv) : ProxySlot × Bool :=
  let s1 := { s.stop with node := some n, nodeName := n.name }
  if !env.portFreeBefore then (s1, false)
  else
    match env.launch with
    | .fileNotFound => ({ s1 with process := none }, false)
    | .exception => ({ s1 with process := none }, false)
    | .launched aliveAfterWait =>
      if aliveAfterWait then ({ s1 with process := some true }, true)
      else ({ s1 with process := none }, false)

end ProxySlot

/-- What the specification's §4.5 asks `Start` to report: success only
when, beyond the process surviving the startup window, a local TCP
connect to the bound port confirms the tunnel. -/
def specStartSuccess (env : ProxySlot.StartEnv) : Bool :=
  env.portFreeBefore && (env.launch = ProxySlot.LaunchOutcome.launched true : Bool)
    && env.connectAfterOk

/-- Pool-level state of `ProxyPool` relevant to the hot-standby pool:
the node catalog, the live slots, the ready queue, the score map, the
round-robin cursor and the verification TTL (300s in the source). -/
structure PoolState where
  allNodes : List Node
  slots : List ProxySlot
  readyNodes : List Node
  scores : Scores
  nodeIndex : Nat
  pretestInterval : Int
  deriving Repr, DecidableEq

/-- Keys of nodes currently bound to a live slot
(`if slot.alive and slot.node` collection used by `_next_node` and
`_fill_ready_pool`). -/
def aliveKeys (slots : List ProxySlot) : List String :=
  slots.filterMap (fun s => if s.alive then s.node.map nodeKey else none)

/-- Latency recorded for a node, 9999 when unscored (`.get('latency',
9999)`). -/
def latencyOf (sc : Scores) (n : Node) : Int :=
  match scoresGet sc (nodeKey n) with
  | some s => s.latency
  | none => 9999

/-- Failure count recorded for a node, 0 when unscored. -/
def failCountOf (sc : Scores) (n : Node) : Nat :=
  match scoresGet sc (nodeKey n) with
  | some s => s.failCount
  | none => 0

/-- The tier classification loop shared by `_fill_ready_pool` and
`_next_node`: skip occupied keys; unscored or stale → T2; verified →
T1; failed → T3. Order within each tier is visit order. -/
def classifyNodes (now interval : Int) (occ : List String) (sc : Scores) :
    List Node → List Node × List Node × List Node
  | [] => ([], [], [])
  | n :: rest =>
    let r := classifyNodes now interval occ sc rest
    if nodeKey n ∈ occ then r
    else
      match scoresGet sc (nodeKey n) with
      | none => (r.1, n :: r.2.1, r.2.2)
      | some s =>
        if interval < now - s.lastTest then (r.1, n :: r.2.1, r.2.2)
        else if s.verified then (n :: r.1, r.2.1, r.2.2)
        else (r.1, r.2.1, n :: r.2.2)

/-- `list.sort(key=lambda n: latency)` (and `_sort_ready_pool`): a
stable sort by cached latency. -/
def sortByLatency (sc : Scores) (l : List Node) : List Node :=
  List.insertionSort (fun a b => latencyOf sc a ≤ latencyOf sc b) l

/-- Score update performed by `_test_single_node` for one tested node:
the oracle yields the measured latency on success, `none` on any
failure (start failure, probe exception, bad status). -/
def applyTest (now : Int) (oracle : Node → Option Int) (sc : Scores) (n : Node) : Scores :=
  match oracle n with
  | some lat =>
    scoresSet sc (nodeKey n) { verified := true, lastTest := now, latency := lat, failCount := 0 }
  | none =>
    scoresSet sc (nodeKey n)
      { verified := false, lastTest := now, latency := 9999
      , failCount := (match scoresGet sc (nodeKey n) with
                      | some s => s.failCount + 1
                      | none => 0) + 1 }

/-- The `for node, ok in results:` append loop of `_fill_ready_pool`:
successful nodes enter the ready queue until the shortage is covered. -/
def appendOk (oracle : Node → Option Int) (needed : Nat) :
    List Node → List Node → Nat → List Node × Nat
  | [], ready, filled => (ready, filled)
  | n :: rest, ready, filled =>
    if (oracle n).isSome && decide (filled < needed) then
      appendOk oracle needed rest (ready ++ [n]) (filled + 1)
    else
      appendOk oracle needed rest ready filled

/-- `ProxyPool._fill_ready_pool`: drain fresh verified nodes (T1,
cheapest first), then parallel-test a bounded batch of untested/stale
nodes (T2), then retry failed nodes (T3) ordered by failure count;
after every fill the ready queue is re-sorted by latency. The modular
index walk `all_nodes[(start_index + i) % len]` is the rotation of the
catalog by `start_index`. The `occupied.add` calls performed after
classification are dead writes in the source (membership is never
re-tested) and are not modelled. -/
def fillReadyPool (now : Int) (oracle : Node → Option Int) (st : PoolState)
    (needed : Nat) (startIndex : Nat) : PoolState :=
  let occ := st.readyNodes.map nodeKey ++ aliveKeys st.slots
  let c := classifyNodes now st.pretestInterval occ st.scores (st.allNodes.rotate startIndex)
  let tier1 := sortByLatency st.scores c.1
  let ready1 := st.readyNodes ++ tier1.take needed
  let filled1 := min needed tier1.length
  if needed ≤ filled1 then
    { st with readyNodes := sortByLatency st.scores ready1 }
  else
    let toTest := c.2.1.take (min c.2.1.length ((needed - filled1) * 3))
    let sc2 := toTest.foldl (applyTest now oracle) st.scores
    let p2 := appendOk oracle needed toTest ready1 filled1
    if needed ≤ p2.2 then
      { st with readyNodes := sortByLatency sc2 p2.1, scores := sc2 }
    else
      let tier3 := List.insertionSort (fun a b => failCountOf sc2 a ≤ failCountOf sc2 b) c.2.2
      let toRetry := tier3.take (min tier3.length ((needed - p2.2) * 2))
      let sc3 := toRetry.foldl (applyTest now oracle) sc2
      let p3 := appendOk oracle needed toRetry p2.1 p2.2
      { st with readyNodes := sortByLatency sc3 p3.1, scores := sc3 }

/-- The ready-queue rotation loop of `_next_node`: pop from the front,
re-append nodes bound to a live exit, return the first free one; a full
unsuccessful rotation restores the original queue. `fuel` is the queue
length at entry. -/
def popReadyLoop (inUse : List String) : Nat → List Node → List Node × Option Node
  | 0, ready => (ready, none)
  | _ + 1, [] => ([], none)
  | fuel + 1, n :: rest =>
    if nodeKey n ∈ inUse then popReadyLoop inUse fuel (rest ++ [n])
    else (rest, some n)

/-- Fallback placeholder for total list indexing inside `nextNode`; the
guarding `isEmpty` test keeps it unreachable. -/
def dfltNode : Node := { name := "", host := "", port := 0 }

/-- `ProxyPool._next_node`: prefer the hot-standby queue (skipping
nodes bound to a live exit); on an empty or exhausted queue fall back
to tier-based selection over the whole catalog (T1 sorted by latency —
the source sorts `tier1` in place, and `candidates` aliases it), or to
a plain round-robin scan. Returns the new state and the chosen node
(`none` only for an empty catalog). -/
def nextNode (now : Int) (st : PoolState) (preferVerified : Bool) :
    PoolState × Option Node :=
  if st.allNodes.isEmpty then (st, none)
  else
    let inUse := aliveKeys st.slots
    let p := popReadyLoop inUse st.readyNodes.length st.readyNodes
    match p.2 with
    | some n => ({ st with readyNodes := p.1 }, some n)
    | none =>
      let st1 := { st with readyNodes := p.1 }
      if !preferVerified || st.scores.isEmpty then
        ({ st1 with nodeIndex := st.nodeIndex + 1 },
         some (st.allNodes.getD (st.nodeIndex % st.allNodes.length) dfltNode))
      else
        let c := classifyNodes now st.pretestInterval inUse st.scores st.allNodes
        if c.1.isEmpty && c.2.1.isEmpty && c.2.2.isEmpty then
          ({ st1 with nodeIndex := st.nodeIndex + 1 },
           some (st.allNodes.getD (st.nodeIndex % st.allNodes.length) dfltNode))
        else if !c.1.isEmpty then
          (st1, some ((sortByLatency st.scores c.1).getD 0 dfltNode))
        else if !c.2.1.isEmpty then
          (st1, some (c.2.1.getD 0 dfltNode))
        else
          (st1, some (c.2.2.getD 0 dfltNode))

/-- A successful `slot.start(node)` on the slot at index `j`, as
performed after `_next_node` hands out `node`: the slot ends up alive
and bound to the node. -/
def bindSlot (st : PoolState) (j : Nat) (n : Node) : PoolState :=
  let dfltSlot : ProxySlot := { slotId := 0, socksPort := 0, process := none, node := none, nodeName := "" }
  let bound : ProxySlot :=
    { st.slots.getD j dfltSlot with process := some true, node := some n, nodeName := n.name }
  { st with slots := st.slots.set j bound }

/-- Keys currently in the hot-standby queue. -/
def readyKeys (st : PoolState) : List String := st.readyNodes.map nodeKey

/-- The hot-standby pool invariant of the specification: no two queue
entries share a `host:port` key, and no entry is bound to a live
slot. -/
def readyInv (st : PoolState) : Prop :=
  (readyKeys st).Nodup ∧ ∀ k ∈ readyKeys st, k ∉ aliveKeys st.slots

instance (st : PoolState) : Decidable (readyInv st) := by
  unfold readyInv; infer_instance

/-! ## Operation traces over the dispatcher

`LoginOp` traces drive the two-phase login reservation law (claim C2):
a `pick` is a `pick_login_exit` reservation at a given clock value, a
`confirm`/`cancel` the completion of one earlier reservation on a given
slot. `AdminOp` traces drive the direct-slot invariant (claim C4): they
cover every normal-flow operation that mutates the exits list. -/

inductive LoginOp
  | pick (now : Int)
  | confirm (i : Nat) (now : Int)
  | cancel (i : Nat)
  deriving Repr, DecidableEq

namespace LoginOp

/-- Apply one login-protocol operation to the dispatcher. -/
def step (d : Dispatcher) : LoginOp → Dispatcher
  | .pick now => (Dispatcher.pick_login_exit now d).1
  | .confirm i now => d.updExit i (Exit.confirm_login now)
  | .cancel i => d.updExit i Exit.cancel_login

/-- Clock value after an operation (completions at `t`, cancellations
keep the current clock). -/
def timeOf (now : Int) : LoginOp → Int
  | .pick t => t
  | .confirm _ t => t
  | .cancel _ => now

/-- Run a trace, threading the clock. -/
def runTrace (now : Int) (d : Dispatcher) : List LoginOp → Int × Dispatcher
  | [] => (now, d)
  | op :: rest => runTrace (timeOf now op) (step d op) rest

/-- Well-formed traces: the clock never goes backwards; every login
pick happens while some healthy, unfrozen exit is under quota (or while
no exit is selectable at all, in which case the pick degrades to the
direct exit without reserving); every confirm/cancel completes a
reservation that is actually in flight on its slot. The quota overflow
branch of `pick_login_exit` (all healthy exits at quota) is thereby
excluded — it deliberately overshoots (see the C2 counterexample). -/
def good (now : Int) (d : Dispatcher) : List LoginOp → Prop
  | [] => True
  | .pick t :: rest =>
    now ≤ t ∧
    (Dispatcher.getHealthy t d = [] ∨
      ∃ i ∈ Dispatcher.getHealthy t d,
        Exit.count_recent_logins t (d.getExit i) < d.maxLoginPerMin) ∧
    good t (step d (.pick t)) rest
  | .confirm i t :: rest =>
    now ≤ t ∧ 1 ≤ (d.getExit i).inflight_logins ∧
    good t (step d (.confirm i t)) rest
  | .cancel i :: rest =>
    1 ≤ (d.getExit i).inflight_logins ∧
    good now (step d (.cancel i)) rest

end LoginOp

/-- The login-quota invariant: at clock `now`, no exit's confirmed plus
in-flight login count in the trailing 60-second window exceeds the
configured quota. -/
def quotaInv (now : Int) (d : Dispatcher) : Prop :=
  ∀ i, Exit.count_recent_logins now (d.getExit i) ≤ d.maxLoginPerMin

/-- Every normal-flow dispatcher operation (claim C4's "normal flow"):
configuration, selection, completion, forwarding and the admin
setters. -/
inductive AdminOp
  | addSocks (name : String) (port : Nat)
  | removeExit (i : Nat)
  | pickLogin (now : Int)
  | pickApi (now : Int)
  | fwd (now : Int) (i : Nat) (o1 o2 : Dispatcher.Outcome)
  | confirmLogin (i : Nat) (now : Int)
  | cancelLogin (i : Nat)
  | setRateLimit (i : Nat) (v : Int)
  | setMaxLogin (v : Nat)

namespace AdminOp

/-- Apply one normal-flow operation to the dispatcher. -/
def step (d : Dispatcher) : AdminOp → Dispatcher
  | .addSocks name port => (d.add_socks5 name port).1
  | .removeExit i => (d.remove_exit i).1
  | .pickLogin now => (Dispatcher.pick_login_exit now d).1
  | .pickApi now => (Dispatcher.pick_api_exit now d).1
  | .fwd now i o1 o2 => (Dispatcher.forward now d i o1 o2).2.1
  | .confirmLogin i now => d.updExit i (Exit.confirm_login now)
  | .cancelLogin i => d.updExit i Exit.cancel_login
  | .setRateLimit i v => (d.set_rate_limit i v).1
  | .setMaxLogin v => (d.set_max_login_per_min v).1

end AdminOp

/-- The direct exit occupies slot 0: the exits list is nonempty and its
head is the direct (proxy-less) exit. -/
def directAtZero (d : Dispatcher) : Prop :=
  d.exits ≠ [] ∧ (d.getExit 0).proxy_url = none

instance (d : Dispatcher) : Decidable (directAtZero d) := by
  unfold directAtZero; infer_instance

/-! ## Concrete states used by counterexamples and witnesses -/

/-- A dispatcher with the direct exit and one tunnel exit at slot 1. -/
def tunnelDisp : Dispatcher := (initDispatcher.add_socks5 "hk" 10001).1

/-- Two catalog nodes with different labels but the same
`host:port` key — the kind of pair an external subscription can
contain, since no ingestion step deduplicates by key. -/
def cnodeA : Node := { name := "a", host := "h", port := 1 }

/-- Companion to `cnodeA` with the same key. -/
def cnodeB : Node := { name := "b", host := "h", port := 1 }

/-- A fresh verified score for the shared key of `cnodeA`/`cnodeB`. -/
def cscoreV : Score := { verified := true, lastTest := 0, latency := 5, failCount := 0 }

/-- Pool state whose catalog holds the duplicate-key pair: the ready
queue is empty and no slot is live, so the pool invariant holds before
replenishment. -/
def dupPool : PoolState :=
  { allNodes := [cnodeA, cnodeB], slots := [], readyNodes := []
  , scores := [("h:1", cscoreV)], nodeIndex := 0, pretestInterval := 300 }

/-- A second catalog node with a distinct key, for the duplicate-free
pool used by the C8 witness. -/
def cnodeC : Node := { name := "c", host := "g", port := 2 }

/-- Pool state with a duplicate-free catalog (both keys scored fresh
and verified), empty ready queue, no slots. -/
def okPool : PoolState :=
  { allNodes := [cnodeA, cnodeC], slots := [], readyNodes := []
  , scores := [("h:1", cscoreV), ("g:2", cscoreV)], nodeIndex := 0, pretestInterval := 300 }

/-- An idle proxy slot. -/
def cslot : ProxySlot :=
  { slotId := 0, socksPort := 21000, process := none, node := none, nodeName := "" }

/-- Start environment in which the port is free and the subprocess
survives the startup wait, but a TCP connect to the bound port would
fail (for instance, the tunnel bound a different port or rejects
connections). -/
def cenvNoConnect : ProxySlot.StartEnv :=
  { portFreeBefore := true, launch := .launched true, connectAfterOk := false }

/-- Eleven login reservations in the same second: one more than the
quota of 10/min, all against the freshly constructed dispatcher whose
only (healthy) exit is the direct one. -/
def elevenPicks : List LoginOp := List.replicate 11 (LoginOp.pick 0)

/-- A well-formed little login trace: reserve, confirm, reserve. -/
def smallLoginTrace : List LoginOp :=
  [LoginOp.pick 0, LoginOp.confirm 0 0, LoginOp.pick 1]

end AkProxy

namespace AkProxy

/-! ## Helper lemmas -/

theorem List_getD_set {α : Type} (l : List α) (i j : Nat) (a dflt : α) :
    (l.set i a).getD j dflt = if i = j ∧ i < l.length then a else l.getD j dflt := by
  induction l generalizing i j with
  | nil => simp
  | cons x xs ih =>
    cases i with
    | zero => cases j <;> simp
    | succ i' =>
      cases j with
      | zero => simp
      | succ j' => simpa [Nat.succ_lt_succ_iff] using ih i' j'

theorem getExit_updExit (d : Dispatcher) (i j : Nat) (f : Exit → Exit) :
    (d.updExit i f).getExit j =
      if i = j ∧ i < d.exits.length then f (d.getExit i) else d.getExit j := by
  unfold Dispatcher.getExit Dispatcher.updExit
  exact List_getD_set d.exits i j _ dfltExit

theorem length_updExit (d : Dispatcher) (i : Nat) (f : Exit → Exit) :
    (d.updExit i f).exits.length = d.exits.length := by
  simp [Dispatcher.updExit]

theorem maxLogin_updExit (d : Dispatcher) (i : Nat) (f : Exit → Exit) :
    (d.updExit i f).maxLoginPerMin = d.maxLoginPerMin := rfl

theorem active_wait_for_rate (now : Int) (e : Exit) :
    (wait_for_rate now e).2.active = e.active := by
  unfold wait_for_rate; split <;> simp

theorem active_pruneReqs (now : Int) (e : Exit) :
    (e.pruneReqs now).active = e.active := rfl

theorem active_auto_throttle (now : Int) (e : Exit) :
    (e.auto_throttle_on_403 now).active = e.active := by
  unfold Exit.auto_throttle_on_403
  dsimp only
  split_ifs <;> rfl

theorem active_checkAlertStatus (now : Int) (e : Exit) (s : Nat) :
    (Dispatcher.checkAlertStatus now e s).active = e.active := by
  unfold Dispatcher.checkAlertStatus
  split_ifs <;> simp [active_auto_throttle, Exit.freeze_for_403]

theorem active_record_error (msg : String) (e : Exit) :
    (e.record_error msg).active = e.active := rfl

theorem proxy_wait_for_rate (now : Int) (e : Exit) :
    (wait_for_rate now e).2.proxy_url = e.proxy_url := by
  unfold wait_for_rate; split <;> simp

theorem proxy_auto_throttle (now : Int) (e : Exit) :
    (e.auto_throttle_on_403 now).proxy_url = e.proxy_url := by
  unfold Exit.auto_throttle_on_403
  dsimp only
  split_ifs <;> rfl

theorem proxy_checkAlertStatus (now : Int) (e : Exit) (s : Nat) :
    (Dispatcher.checkAlertStatus now e s).proxy_url = e.proxy_url := by
  unfold Dispatcher.checkAlertStatus
  split_ifs <;> simp [proxy_auto_throttle, Exit.freeze_for_403]

theorem proxy_record_error (msg : String) (e : Exit) :
    (e.record_error msg).proxy_url = e.proxy_url := rfl

/-! ## C9 — tunnel process manager start -/

/-- Claim C9 (counterexample): `ProxySlot.start` reports success in an
environment where the subprocess survived the startup wait but a local
TCP connect to the bound port would fail — success is *not* gated on a
TCP-connect confirmation, contradicting the claim (the only TCP connect
in `start` is the pre-launch `_is_port_free` check). -/
theorem C9_counterexample :
    (cslot.start cnodeA cenvNoConnect).2 = true ∧
    cenvNoConnect.connectAfterOk = false ∧
    specStartSuccess cenvNoConnect = false := by
  decide

/-- Claim C9 (amended): `Start` reports success exactly when the port
was free before launch, the binary launched without an exception, and
the subprocess was still alive after the bounded startup wait (no
post-launch TCP-connect confirmation is made); on every failure the
process handle is cleared and failure is returned without raising, and
on success the slot is alive and bound to the node. -/
theorem C9_amended (s : ProxySlot) (n : Node) (env : ProxySlot.StartEnv) :
    ((s.start n env).2 = true ↔
      env.portFreeBefore = true ∧ env.launch = ProxySlot.LaunchOutcome.launched true) ∧
    ((s.start n env).2 = false → (s.start n env).1.process = none) ∧
    ((s.start n env).2 = true →
      (s.start n env).1.process = some true ∧ (s.start n env).1.node = some n) := by
  obtain ⟨pf, l, c⟩ := env
  cases pf <;> cases l <;>
    simp_all [ProxySlot.start, ProxySlot.stop] <;>
    rename_i alive <;> cases alive <;> simp

/-- Claim C9 witness: the amended theorem evaluated in a concrete
environment where the subprocess exits during the startup window. -/
theorem C9_witness :
    (cslot.start cnodeA { portFreeBefore := true, launch := .launched false, connectAfterOk := true }).2 = false ∧
    (cslot.start cnodeA { portFreeBefore := true, launch := .launched false, connectAfterOk := true }).1.process = none := by
  refine ⟨by decide, ?_⟩
  exact (C9_amended cslot cnodeA _).2.1 (by decide)

/-! ## C6 / C10 — adaptive throttling on 403/429 -/

/-- Claim C6 (counterexample): an unthrottled exit with an observed rpm
of 0 stays unthrottled after `auto_throttle_on_403` — its rate limit
remains 0 instead of becoming `max(5, floor(0.9 * rpm)) = 5` as the
claim requires, so the "resulting limit is never below 5" clause also
fails (0 denotes unthrottled). -/
theorem C6_counterexample :
    (Exit.auto_throttle_on_403 0 (initExit "x" none)).rate_limit = 0 ∧
    max 5 ((9 * ((Exit.get_current_rpm 0 (initExit "x" none) : Nat) : Int)).tdiv 10) = 5 := by
  decide

/-- Claim C6 (amended): on a 403/429, an unthrottled exit whose
observed rpm exceeds 5 adopts `max(5, floor(0.9 * rpm))` (hence at
least 5); an unthrottled exit at rpm ≤ 5 stays unthrottled; an exit
already throttled at `L > 0` steps down to `max(5, floor(0.9 * L))`
when that is lower, else keeps `L` — so a positive limit never rises
and never drops below `min(L, 5)`. -/
theorem C6_amended (now : Int) (e : Exit) :
    (e.rate_limit = 0 → 5 < Exit.get_current_rpm now e →
      (e.auto_throttle_on_403 now).rate_limit
        = max 5 ((9 * ((Exit.get_current_rpm now e : Nat) : Int)).tdiv 10) ∧
      5 ≤ (e.auto_throttle_on_403 now).rate_limit) ∧
    (e.rate_limit = 0 → Exit.get_current_rpm now e ≤ 5 →
      (e.auto_throttle_on_403 now).rate_limit = 0) ∧
    (0 < e.rate_limit →
      (e.auto_throttle_on_403 now).rate_limit
        = (if max 5 ((9 * e.rate_limit).tdiv 10) < e.rate_limit
           then max 5 ((9 * e.rate_limit).tdiv 10) else e.rate_limit) ∧
      (e.auto_throttle_on_403 now).rate_limit ≤ e.rate_limit ∧
      min e.rate_limit 5 ≤ (e.auto_throttle_on_403 now).rate_limit) := by
  refine ⟨fun h0 h5 => ?_, fun h0 h5 => ?_, fun hpos => ?_⟩
  · unfold Exit.auto_throttle_on_403
    dsimp only
    rw [if_pos h0, if_pos h5]
    exact ⟨rfl, le_max_left _ _⟩
  · unfold Exit.auto_throttle_on_403
    dsimp only
    rw [if_pos h0, if_neg (not_lt.mpr h5)]
    simpa [Exit.pruneReqs] using h0
  · have h0 : ¬ e.rate_limit = 0 := by omega
    unfold Exit.auto_throttle_on_403
    dsimp only
    rw [if_neg h0]
    refine ⟨by split_ifs with h <;> rfl, ?_⟩
    split_ifs with h
    · exact ⟨le_of_lt h, le_trans (min_le_right _ _) (le_max_left _ _)⟩
    · exact ⟨le_refl _, min_le_left _ _⟩

/-- Claim C6 witness: an exit throttled at 10 steps down to 9. -/
theorem C6_witness :
    (Exit.auto_throttle_on_403 0 { initExit "x" none with rate_limit := 10 }).rate_limit = 9 := by
  have h := (C6_amended 0 { initExit "x" none with rate_limit := 10 }).2.2 (by decide)
  exact h.1.trans (by decide)

/-- Claim C10 (counterexample): a rate limit of 3 (settable through
`set_rate_limit`) is positive, yet `auto_throttle_on_403` leaves it at
3, below the claimed lower bound of 5. -/
theorem C10_counterexample :
    (0 : Int) < ({ initExit "x" none with rate_limit := 3 } : Exit).rate_limit ∧
    ((initDispatcher.set_rate_limit 0 3).1.getExit 0).rate_limit = 3 ∧
    (Exit.auto_throttle_on_403 0 { initExit "x" none with rate_limit := 3 }).rate_limit = 3 ∧
    ¬ (5 : Int) ≤ (Exit.auto_throttle_on_403 0 { initExit "x" none with rate_limit := 3 }).rate_limit := by
  decide

/-- Claim C10 (amended): on a positive rate limit `auto_throttle_on_403`
is non-increasing and bounded below by `min(L, 5)` — in particular it
never falls below 5 when it was at least 5; and an unthrottled exit
whose observed rpm is at most 5 stays unthrottled. -/
theorem C10_amended (now : Int) (e : Exit) :
    (0 < e.rate_limit →
      (e.auto_throttle_on_403 now).rate_limit ≤ e.rate_limit ∧
      min e.rate_limit 5 ≤ (e.auto_throttle_on_403 now).rate_limit ∧
      (5 ≤ e.rate_limit → 5 ≤ (e.auto_throttle_on_403 now).rate_limit)) ∧
    (e.rate_limit = 0 → Exit.get_current_rpm now e ≤ 5 →
      (e.auto_throttle_on_403 now).rate_limit = 0) := by
  constructor
  · intro hpos
    have h0 : ¬ e.rate_limit = 0 := by omega
    unfold Exit.auto_throttle_on_403
    dsimp only
    rw [if_neg h0]
    split_ifs with h
    · exact ⟨le_of_lt h, le_trans (min_le_right _ _) (le_max_left _ _), fun _ => le_max_left _ _⟩
    · exact ⟨le_refl _, min_le_left _ _, fun h5 => h5⟩
  · intro h0 h5
    unfold Exit.auto_throttle_on_403
    dsimp only
    rw [if_pos h0, if_neg (not_lt.mpr h5)]
    simpa [Exit.pruneReqs] using h0

/-- Claim C10 witness: an exit throttled at 20 steps down to 18,
staying between 5 and its old limit. -/
theorem C10_witness :
    (Exit.auto_throttle_on_403 0 { initExit "x" none with rate_limit := 20 }).rate_limit ≤ 20 ∧
    (5 : Int) ≤ (Exit.auto_throttle_on_403 0 { initExit "x" none with rate_limit := 20 }).rate_limit := by
  have h := (C10_amended 0 { initExit "x" none with rate_limit := 20 }).1 (by decide)
  exact ⟨h.1, h.2.2 (by decide)⟩

/-! ## C1 — selection never fails and degrades to direct -/

theorem foldl_choice_mem {α β : Type} [LinearOrder β] (f : α → β) (l : List α) (init : α) :
    l.foldl (fun b a => if f a < f b then a else b) init ∈ init :: l := by
  induction l generalizing init with
  | nil => simp
  | cons x xs ih =>
    simp only [List.foldl_cons]
    rcases List.mem_cons.mp (ih (if f x < f init then x else init)) with h1 | h2
    · rw [h1]
      split_ifs <;> simp
    · simp [h2]

theorem minByFirst_mem {β : Type} [LinearOrder β] (f : Nat → β) (l : List Nat) (h : l ≠ []) :
    (Dispatcher.minByFirst f l).getD 0 ∈ l := by
  cases l with
  | nil => exact absurd rfl h
  | cons x xs => simpa [Dispatcher.minByFirst] using foldl_choice_mem f xs x

theorem mem_getHealthy_lt (now : Int) (d : Dispatcher) (i : Nat)
    (h : i ∈ Dispatcher.getHealthy now d) : i < d.exits.length := by
  have := (List.mem_filter.mp h).1
  simpa using this

theorem length_foldl_updExit (g : Exit → Exit) (hs : List Nat) (d : Dispatcher) :
    ((hs.foldl (fun acc i => acc.updExit i g) d).exits.length) = d.exits.length := by
  induction hs generalizing d with
  | nil => rfl
  | cons a as ih => simpa [length_updExit] using ih (d.updExit a g)

/-- Claim C1: for every dispatcher state with at least the direct exit
present (an invariant of construction — see the slot-0 development),
`pick_login_exit` and `pick_api_exit` are total functions that return a
valid exit slot; when no exit is healthy-and-unfrozen, both return the
direct exit at slot 0, unchanged state, without error. (Totality of the
Lean functions models the source's blanket `try/except` whose handler
also returns `self.exits[0]`.) -/
theorem C1_pick_total (now : Int) (d : Dispatcher) (h : d.exits ≠ []) :
    (Dispatcher.pick_login_exit now d).2 < d.exits.length ∧
    (Dispatcher.pick_api_exit now d).2 < d.exits.length ∧
    (Dispatcher.getHealthy now d = [] →
      Dispatcher.pick_login_exit now d = (d, 0) ∧
      Dispatcher.pick_api_exit now d = (d, 0)) := by
  refine ⟨?_, ?_, fun hempty => ?_⟩
  · unfold Dispatcher.pick_login_exit
    dsimp only
    split
    · exact List.length_pos.mpr h
    · rename_i h1
      split
      · rename_i h2
        refine mem_getHealthy_lt now d _ (minByFirst_mem _ _ ?_)
        simpa [List.isEmpty_iff] using h1
      · rename_i h2
        split
        · rename_i h3
          refine mem_getHealthy_lt now d _ (List.mem_filter.mp (minByFirst_mem _ _ ?_)).1
          simpa [List.isEmpty_iff] using h2
        · rename_i h3
          refine mem_getHealthy_lt now d _
            (List.mem_filter.mp (List.mem_filter.mp (minByFirst_mem _ _ ?_)).1).1
          simpa [List.isEmpty_iff] using h3
  · unfold Dispatcher.pick_api_exit
    dsimp only
    split
    · exact List.length_pos.mpr h
    · rename_i h1
      split
      · rename_i h3
        refine mem_getHealthy_lt now d _ (minByFirst_mem _ _ ?_)
        simpa [List.isEmpty_iff] using h1
      · rename_i h3
        refine mem_getHealthy_lt now d _ (List.mem_filter.mp (minByFirst_mem _ _ ?_)).1
        simpa [List.isEmpty_iff] using h3
  · have h1 : (Dispatcher.getHealthy now d).isEmpty = true := by simp [hempty]
    constructor
    · unfold Dispatcher.pick_login_exit
      dsimp only
      rw [if_pos h1]
    · unfold Dispatcher.pick_api_exit
      dsimp only
      rw [if_pos h1]

/-- Claim C1 witness: on the freshly constructed dispatcher both picks
return a valid slot, and on a dispatcher whose only exit is unhealthy
both picks degrade to slot 0 unchanged. -/
theorem C1_witness :
    initDispatcher.exits ≠ [] ∧
    (Dispatcher.pick_login_exit 0 initDispatcher).2 < initDispatcher.exits.length ∧
    Dispatcher.pick_login_exit 0
      { exits := [{ initExit "direct" none with healthy := false }], maxLoginPerMin := 10 }
      = ({ exits := [{ initExit "direct" none with healthy := false }], maxLoginPerMin := 10 }, 0) := by
  refine ⟨by decide, (C1_pick_total 0 initDispatcher (by decide)).1, ?_⟩
  exact ((C1_pick_total 0 _ (by decide)).2.2 (by decide)).1

/-! ## C7 — `active` bracketing of `forward` -/

/-- Claim C7: whatever the outcome of the forwarded request (response,
transport error with or without a successful direct retry, or
cancellation), every exit's `active` counter ends where it started:
`forward` increments it on entry and decrements it on every exit path,
and the direct-retry path brackets the direct exit's counter the same
way. -/
theorem activeAt_updExit (d : Dispatcher) (i j : Nat) (f : Exit → Exit)
    (hf : ∀ e, (f e).active = e.active) :
    ((d.updExit i f).getExit j).active = (d.getExit j).active := by
  rw [getExit_updExit]
  split_ifs with h
  · obtain ⟨rfl, _⟩ := h
    exact hf _
  · rfl

theorem activeAt_inc (d : Dispatcher) (i j : Nat) :
    ((d.updExit i (fun e => { e with active := e.active + 1 })).getExit j).active
      = (d.getExit j).active + (if i = j ∧ i < d.exits.length then 1 else 0) := by
  rw [getExit_updExit]
  split_ifs with h
  · obtain ⟨rfl, _⟩ := h
    rfl
  · simp

theorem activeAt_dec (d : Dispatcher) (i j : Nat) :
    ((d.updExit i (fun e => { e with active := e.active - 1 })).getExit j).active
      = (d.getExit j).active - (if i = j ∧ i < d.exits.length then 1 else 0) := by
  rw [getExit_updExit]
  split_ifs with h
  · obtain ⟨rfl, _⟩ := h
    rfl
  · simp

theorem activeAt_wait (now : Int) (d : Dispatcher) (i j : Nat) :
    ((d.updExit i (fun e => (wait_for_rate now e).2)).getExit j).active
      = (d.getExit j).active :=
  activeAt_updExit d i j _ (active_wait_for_rate now)

theorem activeAt_alert (now : Int) (s : Nat) (d : Dispatcher) (i j : Nat) :
    ((d.updExit i (fun e => Dispatcher.checkAlertStatus now e s)).getExit j).active
      = (d.getExit j).active :=
  activeAt_updExit d i j _ (fun e => active_checkAlertStatus now e s)

theorem activeAt_recErr (msg : String) (d : Dispatcher) (i j : Nat) :
    ((d.updExit i (Exit.record_error msg)).getExit j).active
      = (d.getExit j).active :=
  activeAt_updExit d i j _ (active_record_error msg)

theorem errors_wait_for_rate (now : Int) (e : Exit) :
    (wait_for_rate now e).2.errors = e.errors := by
  unfold wait_for_rate; split <;> simp

theorem errors_auto_throttle (now : Int) (e : Exit) :
    (e.auto_throttle_on_403 now).errors = e.errors := by
  unfold Exit.auto_throttle_on_403
  dsimp only
  split_ifs <;> rfl

theorem errors_checkAlertStatus (now : Int) (e : Exit) (s : Nat) :
    (Dispatcher.checkAlertStatus now e s).errors = e.errors := by
  unfold Dispatcher.checkAlertStatus
  split_ifs <;> simp [errors_auto_throttle, Exit.freeze_for_403]

theorem errors_record_error (msg : String) (e : Exit) :
    (e.record_error msg).errors = e.errors + 1 := rfl

theorem errorsAt_updExit (d : Dispatcher) (i j : Nat) (f : Exit → Exit)
    (hf : ∀ e, (f e).errors = e.errors) :
    ((d.updExit i f).getExit j).errors = (d.getExit j).errors := by
  rw [getExit_updExit]
  split_ifs with h
  · obtain ⟨rfl, _⟩ := h
    exact hf _
  · rfl

theorem errorsAt_incA (d : Dispatcher) (i j : Nat) :
    ((d.updExit i (fun e => { e with active := e.active + 1 })).getExit j).errors
      = (d.getExit j).errors :=
  errorsAt_updExit d i j _ (fun _ => rfl)

theorem errorsAt_decA (d : Dispatcher) (i j : Nat) :
    ((d.updExit i (fun e => { e with active := e.active - 1 })).getExit j).errors
      = (d.getExit j).errors :=
  errorsAt_updExit d i j _ (fun _ => rfl)

theorem errorsAt_wait (now : Int) (d : Dispatcher) (i j : Nat) :
    ((d.updExit i (fun e => (wait_for_rate now e).2)).getExit j).errors
      = (d.getExit j).errors :=
  errorsAt_updExit d i j _ (errors_wait_for_rate now)

theorem errorsAt_alert (now : Int) (s : Nat) (d : Dispatcher) (i j : Nat) :
    ((d.updExit i (fun e => Dispatcher.checkAlertStatus now e s)).getExit j).errors
      = (d.getExit j).errors :=
  errorsAt_updExit d i j _ (fun e => errors_checkAlertStatus now e s)

theorem errorsAt_recErr (msg : String) (d : Dispatcher) (i j : Nat) :
    ((d.updExit i (Exit.record_error msg)).getExit j).errors
      = (d.getExit j).errors + (if i = j ∧ i < d.exits.length then 1 else 0) := by
  rw [getExit_updExit]
  split_ifs with h
  · obtain ⟨rfl, _⟩ := h
    rfl
  · simp

theorem is_direct_eq_false (e : Exit) (h : e.proxy_url ≠ none) : e.is_direct = false := by
  unfold Exit.is_direct
  cases hpp : e.proxy_url with
  | none => exact absurd hpp h
  | some u => rfl

theorem is_direct_eq_true (e : Exit) (h : e.proxy_url = none) : e.is_direct = true := by
  unfold Exit.is_direct
  rw [h]
  rfl

theorem proxyAt_updExit (d : Dispatcher) (i j : Nat) (f : Exit → Exit)
    (hf : ∀ e, (f e).proxy_url = e.proxy_url) :
    ((d.updExit i f).getExit j).proxy_url = (d.getExit j).proxy_url := by
  rw [getExit_updExit]
  split_ifs with h
  · obtain ⟨rfl, _⟩ := h
    exact hf _
  · rfl

theorem proxyAt_incA (d : Dispatcher) (i j : Nat) :
    ((d.updExit i (fun e => { e with active := e.active + 1 })).getExit j).proxy_url
      = (d.getExit j).proxy_url :=
  proxyAt_updExit d i j _ (fun _ => rfl)

theorem proxyAt_decA (d : Dispatcher) (i j : Nat) :
    ((d.updExit i (fun e => { e with active := e.active - 1 })).getExit j).proxy_url
      = (d.getExit j).proxy_url :=
  proxyAt_updExit d i j _ (fun _ => rfl)

theorem proxyAt_wait (now : Int) (d : Dispatcher) (i j : Nat) :
    ((d.updExit i (fun e => (wait_for_rate now e).2)).getExit j).proxy_url
      = (d.getExit j).proxy_url :=
  proxyAt_updExit d i j _ (proxy_wait_for_rate now)

theorem proxyAt_alert (now : Int) (s : Nat) (d : Dispatcher) (i j : Nat) :
    ((d.updExit i (fun e => Dispatcher.checkAlertStatus now e s)).getExit j).proxy_url
      = (d.getExit j).proxy_url :=
  proxyAt_updExit d i j _ (fun e => proxy_checkAlertStatus now e s)

theorem proxyAt_recErr (msg : String) (d : Dispatcher) (i j : Nat) :
    ((d.updExit i (Exit.record_error msg)).getExit j).proxy_url
      = (d.getExit j).proxy_url :=
  proxyAt_updExit d i j _ (proxy_record_error msg)

theorem C7_active_restored (now : Int) (d : Dispatcher) (i : Nat)
    (o1 o2 : Dispatcher.Outcome) (j : Nat) :
    ((Dispatcher.forward now d i o1 o2).2.1.getExit j).active = (d.getExit j).active := by
  unfold Dispatcher.forward
  cases o1 with
  | resp s =>
    dsimp only
    simp only [activeAt_inc, activeAt_dec, activeAt_wait, activeAt_alert, length_updExit]
    split_ifs <;> omega
  | cancelled =>
    dsimp only
    simp only [activeAt_inc, activeAt_dec, activeAt_wait, length_updExit]
    split_ifs <;> omega
  | err =>
    dsimp only
    cases o2 <;>
      · split_ifs with hdir <;>
          · simp only [activeAt_inc, activeAt_dec, activeAt_wait, activeAt_alert,
              activeAt_recErr, length_updExit]
            split_ifs <;> omega

/-! ## C5 — transport failure handling -/

/-- Claim C5: when the attempt through a tunnel exit raises a transport
error, the error is recorded on that exit and the request is retried
exactly once through the direct exit (attempt list `[i, 0]`): a direct
success is returned to the caller, a direct failure is surfaced (with
the direct exit's error recorded), and a cancellation propagates. When
the failing exit is itself direct, the failure is surfaced immediately
with no retry (attempt list `[i]`). -/
theorem C5_transport_failure (now : Int) (d : Dispatcher) (i : Nat) (o2 : Dispatcher.Outcome)
    (hi : i < d.exits.length) (h0 : (d.getExit 0).proxy_url = none) :
    ((d.getExit i).proxy_url ≠ none →
      (Dispatcher.forward now d i Dispatcher.Outcome.err o2).2.2.2 = [i, 0] ∧
      ((Dispatcher.forward now d i Dispatcher.Outcome.err o2).2.1.getExit i).errors
        = (d.getExit i).errors + 1 ∧
      (∀ s, o2 = Dispatcher.Outcome.resp s →
        (Dispatcher.forward now d i Dispatcher.Outcome.err o2).2.2.1 = Dispatcher.FwdResult.ok s) ∧
      (o2 = Dispatcher.Outcome.err →
        (Dispatcher.forward now d i Dispatcher.Outcome.err o2).2.2.1 = Dispatcher.FwdResult.err ∧
        ((Dispatcher.forward now d i Dispatcher.Outcome.err o2).2.1.getExit 0).errors
          = (d.getExit 0).errors + 1) ∧
      (o2 = Dispatcher.Outcome.cancelled →
        (Dispatcher.forward now d i Dispatcher.Outcome.err o2).2.2.1
          = Dispatcher.FwdResult.cancelled)) ∧
    ((d.getExit i).proxy_url = none →
      (Dispatcher.forward now d i Dispatcher.Outcome.err o2).2.2.2 = [i] ∧
      (Dispatcher.forward now d i Dispatcher.Outcome.err o2).2.2.1 = Dispatcher.FwdResult.err ∧
      ((Dispatcher.forward now d i Dispatcher.Outcome.err o2).2.1.getExit i).errors
        = (d.getExit i).errors + 1) := by
  constructor
  · intro htun
    have hne0 : i ≠ 0 := fun h => htun (h ▸ h0)
    have hp : ((((d.updExit i (fun e => (wait_for_rate now e).2)).updExit i
        (fun e => { e with active := e.active + 1 })).updExit i
        (Exit.record_error "")).getExit i).proxy_url = (d.getExit i).proxy_url := by
      simp only [proxyAt_recErr, proxyAt_incA, proxyAt_wait]
    have hdir : ((((d.updExit i (fun e => (wait_for_rate now e).2)).updExit i
        (fun e => { e with active := e.active + 1 })).updExit i
        (Exit.record_error "")).getExit i).is_direct = false :=
      is_direct_eq_false _ (by rw [hp]; exact htun)
    unfold Dispatcher.forward
    dsimp only
    rw [hdir, if_neg Bool.false_ne_true]
    cases o2 with
    | resp s =>
      dsimp only
      refine ⟨rfl, ?_, ?_, ?_, ?_⟩
      · simp only [errorsAt_decA, errorsAt_alert, errorsAt_incA, errorsAt_wait,
          errorsAt_recErr, length_updExit]
        simp [hi]
      · intro s' hs
        cases hs
        rfl
      · intro hc
        simp at hc
      · intro hc
        simp at hc
    | err =>
      dsimp only
      refine ⟨rfl, ?_, ?_, fun _ => ⟨rfl, ?_⟩, ?_⟩
      · simp only [errorsAt_decA, errorsAt_incA, errorsAt_wait, errorsAt_recErr, length_updExit]
        simp [hi, Ne.symm hne0]
      · intro s' hs
        simp at hs
      · simp only [errorsAt_decA, errorsAt_incA, errorsAt_wait, errorsAt_recErr, length_updExit]
        have h0len : 0 < d.exits.length := Nat.lt_of_le_of_lt (Nat.zero_le i) hi
        simp [hne0, h0len]
      · intro hc
        simp at hc
    | cancelled =>
      dsimp only
      refine ⟨rfl, ?_, ?_, ?_, fun _ => rfl⟩
      · simp only [errorsAt_decA, errorsAt_incA, errorsAt_wait, errorsAt_recErr, length_updExit]
        simp [hi]
      · intro s' hs
        simp at hs
      · intro hc
        simp at hc
  · intro hdirect
    have hp : ((((d.updExit i (fun e => (wait_for_rate now e).2)).updExit i
        (fun e => { e with active := e.active + 1 })).updExit i
        (Exit.record_error "")).getExit i).proxy_url = (d.getExit i).proxy_url := by
      simp only [proxyAt_recErr, proxyAt_incA, proxyAt_wait]
    have hdir : ((((d.updExit i (fun e => (wait_for_rate now e).2)).updExit i
        (fun e => { e with active := e.active + 1 })).updExit i
        (Exit.record_error "")).getExit i).is_direct = true :=
      is_direct_eq_true _ (by rw [hp]; exact hdirect)
    unfold Dispatcher.forward
    dsimp only
    rw [hdir, if_pos rfl]
    dsimp only
    refine ⟨rfl, rfl, ?_⟩
    simp only [errorsAt_decA, errorsAt_incA, errorsAt_wait, errorsAt_recErr, length_updExit]
    simp [hi]

theorem warn403_wait (now : Int) (e : Exit) :
    (wait_for_rate now e).2.warn_403 = e.warn_403 := by
  unfold wait_for_rate; split <;> simp

theorem frozen_wait (now : Int) (e : Exit) :
    (wait_for_rate now e).2.frozen_until = e.frozen_until := by
  unfold wait_for_rate; split <;> simp

theorem warn403_auto_throttle (now : Int) (e : Exit) :
    (e.auto_throttle_on_403 now).warn_403 = e.warn_403 := by
  unfold Exit.auto_throttle_on_403
  dsimp only
  split_ifs <;> rfl

theorem frozen_auto_throttle (now : Int) (e : Exit) :
    (e.auto_throttle_on_403 now).frozen_until = e.frozen_until := by
  unfold Exit.auto_throttle_on_403
  dsimp only
  split_ifs <;> rfl

theorem warn403_checkAlert403 (now : Int) (e : Exit) :
    (Dispatcher.checkAlertStatus now e 403).warn_403 = e.warn_403 + 1 := by
  unfold Dispatcher.checkAlertStatus
  rw [if_pos rfl]
  simp [warn403_auto_throttle, Exit.freeze_for_403]

theorem frozen_checkAlert403 (now : Int) (e : Exit) :
    (Dispatcher.checkAlertStatus now e 403).frozen_until = now + 60 := by
  unfold Dispatcher.checkAlertStatus
  rw [if_pos rfl]
  simp [frozen_auto_throttle, Exit.freeze_for_403]

/-! ## C3 — 403 handling -/

/-- Claim C3 (counterexample): a healthy tunnel exit's forwarded
request answers HTTP 403; the only `_do_request` attempt is through the
tunnel itself — there is no automatic direct-exit retry (the direct
exit's state is bit-for-bit unchanged), contradicting the claim that
the request "is retried once automatically via the direct Exit". Retry
happens only on transport exceptions; a 403 is a response. -/
theorem C3_counterexample :
    (Dispatcher.forward 0 tunnelDisp 1 (Dispatcher.Outcome.resp 403)
      (Dispatcher.Outcome.resp 200)).2.2.2 = [1] ∧
    0 ∉ (Dispatcher.forward 0 tunnelDisp 1 (Dispatcher.Outcome.resp 403)
      (Dispatcher.Outcome.resp 200)).2.2.2 ∧
    (Dispatcher.forward 0 tunnelDisp 1 (Dispatcher.Outcome.resp 403)
      (Dispatcher.Outcome.resp 200)).2.1.getExit 0 = tunnelDisp.getExit 0 := by
  decide

/-- Claim C3 (amended): when `forward` through a healthy tunnel exit
receives an HTTP 403 response, that exit's `warn_403` rises by exactly
1 and the exit is frozen for 60 seconds from the post-rate-wait
instant (`is_frozen` holds); the 403 response itself is returned to
the caller, with no automatic retry (the tunnel is the only attempt)
and every other exit untouched. -/
theorem C3_amended (now : Int) (d : Dispatcher) (i : Nat) (o2 : Dispatcher.Outcome)
    (hi : i < d.exits.length) (hhealthy : (d.getExit i).healthy = true)
    (htun : (d.getExit i).proxy_url ≠ none) :
    (Dispatcher.forward now d i (Dispatcher.Outcome.resp 403) o2).2.2.2 = [i] ∧
    (Dispatcher.forward now d i (Dispatcher.Outcome.resp 403) o2).2.2.1
      = Dispatcher.FwdResult.ok 403 ∧
    ((Dispatcher.forward now d i (Dispatcher.Outcome.resp 403) o2).2.1.getExit i).warn_403
      = (d.getExit i).warn_403 + 1 ∧
    ((Dispatcher.forward now d i (Dispatcher.Outcome.resp 403) o2).2.1.getExit i).frozen_until
      = (Dispatcher.forward now d i (Dispatcher.Outcome.resp 403) o2).1 + 60 ∧
    Exit.is_frozen (Dispatcher.forward now d i (Dispatcher.Outcome.resp 403) o2).1
      ((Dispatcher.forward now d i (Dispatcher.Outcome.resp 403) o2).2.1.getExit i) = true ∧
    (∀ j, j ≠ i →
      (Dispatcher.forward now d i (Dispatcher.Outcome.resp 403) o2).2.1.getExit j
        = d.getExit j) := by
  unfold Dispatcher.forward
  dsimp only
  refine ⟨rfl, rfl, ?_, ?_, ?_, ?_⟩
  · simp only [getExit_updExit, length_updExit]
    simp [hi, warn403_checkAlert403, warn403_wait]
  · simp only [getExit_updExit, length_updExit]
    simp [hi, frozen_checkAlert403]
  · simp only [getExit_updExit, length_updExit, Exit.is_frozen]
    simp [hi, frozen_checkAlert403, decide_eq_true_eq]
  · intro j hj
    have hcond : ¬ (i = j ∧ i < d.exits.length) := fun hc => hj (hc.1.symm)
    simp only [getExit_updExit, length_updExit]
    simp [hcond]

/-- Claim C3 witness: the amended theorem evaluated on the concrete
one-tunnel dispatcher. -/
theorem C3_witness :
    (Dispatcher.forward 0 tunnelDisp 1 (Dispatcher.Outcome.resp 403)
      Dispatcher.Outcome.err).2.2.1 = Dispatcher.FwdResult.ok 403 ∧
    ((Dispatcher.forward 0 tunnelDisp 1 (Dispatcher.Outcome.resp 403)
      Dispatcher.Outcome.err).2.1.getExit 1).warn_403 = 1 := by
  have h := C3_amended 0 tunnelDisp 1 Dispatcher.Outcome.err (by decide) (by decide) (by decide)
  refine ⟨h.2.1, ?_⟩
  rw [h.2.2.1]
  decide

/-! ## C2 — the login-quota two-phase reservation law -/

theorem length_filter_le_of_imp {α : Type} (p q : α → Bool) (l : List α)
    (h : ∀ a, p a = true → q a = true) :
    (l.filter p).length ≤ (l.filter q).length := by
  induction l with
  | nil => simp
  | cons a as ih =>
    by_cases hp : p a = true
    · simp only [List.filter_cons, hp, h a hp, if_true]
      exact Nat.succ_le_succ ih
    · simp only [List.filter_cons, hp, if_false]
      cases hq : q a
      · simpa [hq] using ih
      · simpa [hq] using Nat.le_succ_of_le ih

theorem count_mono (t t' : Int) (h : t ≤ t') (e : Exit) :
    Exit.count_recent_logins t' e ≤ Exit.count_recent_logins t e := by
  unfold Exit.count_recent_logins
  refine Nat.add_le_add_right ?_ _
  refine length_filter_le_of_imp _ _ _ (fun a ha => ?_)
  simp only [decide_eq_true_eq] at ha ⊢
  omega

theorem filter_idem {α : Type} (p : α → Bool) (l : List α) :
    (l.filter p).filter p = l.filter p := by
  induction l with
  | nil => rfl
  | cons a as ih =>
    by_cases hp : p a = true <;> simp [List.filter_cons, hp, ih]

theorem count_prune (now : Int) (e : Exit) :
    Exit.count_recent_logins now (e.pruneLogins now) = Exit.count_recent_logins now e := by
  unfold Exit.count_recent_logins Exit.pruneLogins
  simp [filter_idem]

theorem countAt_updExit (now : Int) (d : Dispatcher) (i j : Nat) (f : Exit → Exit)
    (hf : ∀ e, Exit.count_recent_logins now (f e) = Exit.count_recent_logins now e) :
    Exit.count_recent_logins now ((d.updExit i f).getExit j)
      = Exit.count_recent_logins now (d.getExit j) := by
  rw [getExit_updExit]
  split_ifs with h
  · obtain ⟨rfl, _⟩ := h
    exact hf _
  · rfl

theorem countAt_foldl_prune (now : Int) (hs : List Nat) (d : Dispatcher) (j : Nat) :
    Exit.count_recent_logins now
        ((hs.foldl (fun acc i => acc.updExit i (Exit.pruneLogins now)) d).getExit j)
      = Exit.count_recent_logins now (d.getExit j) := by
  induction hs generalizing d with
  | nil => rfl
  | cons a as ih =>
    have step := countAt_updExit now d a j (Exit.pruneLogins now) (fun e => count_prune now e)
    simpa [step] using ih (d.updExit a (Exit.pruneLogins now))

theorem count_reserve_record (now : Int) (e : Exit) :
    Exit.count_recent_logins now ((e.reserve_login).record_request now)
      = Exit.count_recent_logins now e + 1 := by
  unfold Exit.count_recent_logins Exit.reserve_login Exit.record_request
  dsimp only
  omega

theorem count_confirm (t : Int) (e : Exit) (h : 1 ≤ e.inflight_logins) :
    Exit.count_recent_logins t (e.confirm_login t) = Exit.count_recent_logins t e := by
  unfold Exit.count_recent_logins Exit.confirm_login
  dsimp only
  rw [List.filter_append]
  have hdec : decide (t - 60 < t) = true := by
    simp only [decide_eq_true_eq]
    omega
  simp only [List.filter_cons, List.filter_nil, hdec, if_true,
    List.length_append, List.length_cons, List.length_nil]
  omega

theorem count_cancel (now : Int) (e : Exit) :
    Exit.count_recent_logins now (e.cancel_login)
      ≤ Exit.count_recent_logins now e := by
  unfold Exit.count_recent_logins Exit.cancel_login
  dsimp only
  omega

theorem maxLogin_foldl_prune (now : Int) (hs : List Nat) (d : Dispatcher) :
    ((hs.foldl (fun acc i => acc.updExit i (Exit.pruneLogins now)) d)).maxLoginPerMin
      = d.maxLoginPerMin := by
  induction hs generalizing d with
  | nil => rfl
  | cons a as ih =>
    simpa [maxLogin_updExit] using ih (d.updExit a (Exit.pruneLogins now))

theorem quotaInv_lift (t t' : Int) (h : t ≤ t') (d : Dispatcher)
    (hinv : quotaInv t d) : quotaInv t' d :=
  fun i => le_trans (count_mono t t' h _) (hinv i)

theorem quotaInv_updExit_reserve (t : Int) (dbase d1 : Dispatcher) (best : Nat)
    (hd1count : ∀ j, Exit.count_recent_logins t (d1.getExit j)
      = Exit.count_recent_logins t (dbase.getExit j))
    (hd1max : d1.maxLoginPerMin = dbase.maxLoginPerMin)
    (hinv : quotaInv t dbase)
    (hblt : Exit.count_recent_logins t (d1.getExit best) < d1.maxLoginPerMin) :
    quotaInv t (d1.updExit best (fun e => (e.reserve_login).record_request t)) := by
  intro j
  rw [maxLogin_updExit, getExit_updExit]
  split_ifs with h
  · obtain ⟨rfl, _⟩ := h
    rw [count_reserve_record]
    omega
  · rw [hd1count j, hd1max]
    exact hinv j

theorem quotaInv_pick (t : Int) (d : Dispatcher)
    (hcond : Dispatcher.getHealthy t d = [] ∨
      ∃ i ∈ Dispatcher.getHealthy t d,
        Exit.count_recent_logins t (d.getExit i) < d.maxLoginPerMin)
    (hinv : quotaInv t d) : quotaInv t (Dispatcher.pick_login_exit t d).1 := by
  unfold Dispatcher.pick_login_exit
  dsimp only
  split
  · exact hinv
  · rename_i hne
    rcases hcond with hempty | hex
    · rw [hempty] at hne
      simp at hne
    · obtain ⟨i0, hi0mem, hi0lt⟩ := hex
      split
      · rename_i hcemp
        rw [List.isEmpty_iff, List.filter_eq_nil_iff] at hcemp
        have hcontr := hcemp i0 hi0mem
        rw [decide_eq_true_eq, countAt_foldl_prune] at hcontr
        exact absurd hi0lt hcontr
      · rename_i hcemp
        rw [List.isEmpty_iff] at hcemp
        split
        · rename_i huemp
          have hbest := minByFirst_mem
            (fun i => ((((Dispatcher.getHealthy t d).foldl
              (fun acc i => acc.updExit i (Exit.pruneLogins t)) d)).getExit i).active) _ hcemp
          have hcand := List.mem_filter.mp hbest
          refine quotaInv_updExit_reserve t d _ _
            (fun j => countAt_foldl_prune t _ d j) (maxLogin_foldl_prune t _ d) hinv ?_
          rw [maxLogin_foldl_prune]
          exact decide_eq_true_eq.mp hcand.2
        · rename_i huemp
          rw [List.isEmpty_iff] at huemp
          have hbest := minByFirst_mem
            (fun i => ((((Dispatcher.getHealthy t d).foldl
              (fun acc i => acc.updExit i (Exit.pruneLogins t)) d)).getExit i).active) _ huemp
          have hcand := (List.mem_filter.mp hbest).1
          have hcand2 := List.mem_filter.mp hcand
          refine quotaInv_updExit_reserve t d _ _
            (fun j => countAt_foldl_prune t _ d j) (maxLogin_foldl_prune t _ d) hinv ?_
          rw [maxLogin_foldl_prune]
          exact decide_eq_true_eq.mp hcand2.2

/-- Claim C2 (counterexample): eleven `pick_login_exit` reservations in
the same second against the fresh dispatcher (quota 10/min, one healthy
exit). The eleventh pick finds every healthy exit at quota and — by the
deliberate overflow branch of `pick_login_exit` — still reserves on the
least-loaded one, driving its windowed confirmed-plus-in-flight count
to 11 > 10. -/
theorem C2_counterexample :
    initDispatcher.maxLoginPerMin = 10 ∧
    Exit.count_recent_logins 0
      ((LoginOp.runTrace 0 initDispatcher elevenPicks).2.getExit 0) = 11 := by
  constructor
  · rfl
  · decide

/-- Claim C2 (amended): along any trace of login reservations and
completions in which the clock never runs backwards, every confirm or
cancel matches a reservation actually in flight, and every reservation
is made while some healthy unfrozen exit is under quota (or while no
exit is selectable, in which case nothing is reserved), no exit's
confirmed-plus-in-flight login count within the trailing 60-second
window ever exceeds the configured quota — the two-phase scheme counts
in-flight reservations, so concurrent bursts cannot overshoot. If
every healthy exit is already at quota, the overflow branch
deliberately exceeds it (see the counterexample). -/
theorem C2_amended (ops : List LoginOp) (now : Int) (d : Dispatcher)
    (hg : LoginOp.good now d ops) (hinv : quotaInv now d) :
    quotaInv (LoginOp.runTrace now d ops).1 (LoginOp.runTrace now d ops).2 := by
  induction ops generalizing now d with
  | nil => exact hinv
  | cons op rest ih =>
    cases op with
    | pick t =>
      obtain ⟨hle, hcond, hrest⟩ := hg
      exact ih _ _ hrest (quotaInv_pick t d hcond (quotaInv_lift now t hle d hinv))
    | confirm i t =>
      obtain ⟨hle, hinfl, hrest⟩ := hg
      refine ih _ _ hrest ?_
      intro j
      have hlift := quotaInv_lift now t hle d hinv
      dsimp only [LoginOp.timeOf, LoginOp.step]
      rw [maxLogin_updExit, getExit_updExit]
      split_ifs with h
      · obtain ⟨rfl, _⟩ := h
        rw [count_confirm t _ hinfl]
        exact hlift i
      · exact hlift j
    | cancel i =>
      obtain ⟨hinfl, hrest⟩ := hg
      refine ih _ _ hrest ?_
      intro j
      dsimp only [LoginOp.timeOf, LoginOp.step]
      rw [maxLogin_updExit, getExit_updExit]
      split_ifs with h
      · obtain ⟨rfl, _⟩ := h
        exact le_trans (count_cancel now _) (hinv i)
      · exact hinv j

/-- Claim C2 witness: the amended law run over the concrete
reserve-confirm-reserve trace. -/
theorem C2_witness :
    quotaInv (LoginOp.runTrace 0 initDispatcher smallLoginTrace).1
      (LoginOp.runTrace 0 initDispatcher smallLoginTrace).2 := by
  have hinv : quotaInv 0 initDispatcher := by
    intro i
    cases i with
    | zero => decide
    | succ n => exact Nat.zero_le _
  refine C2_amended smallLoginTrace 0 initDispatcher ?_ hinv
  exact ⟨by decide, Or.inr ⟨0, by decide, by decide⟩, by decide, by decide,
    by decide, Or.inr ⟨0, by decide, by decide⟩, trivial⟩

/-! ## C8 — hot-standby pool invariant -/

theorem classify_count (now itv : Int) (occ : List String) (sc : Scores)
    (input : List Node) (k : String) :
    ((classifyNodes now itv occ sc input).1.map nodeKey).count k
      + ((classifyNodes now itv occ sc input).2.1.map nodeKey).count k
      + ((classifyNodes now itv occ sc input).2.2.map nodeKey).count k
      ≤ (input.map nodeKey).count k := by
  induction input with
  | nil => simp [classifyNodes]
  | cons n rest ih =>
    simp only [classifyNodes]
    split_ifs with h1
    · refine le_trans ih ?_
      simp only [List.map_cons, List.count_cons]
      split_ifs <;> omega
    · cases hsc : scoresGet sc (nodeKey n) with
      | none =>
        dsimp only
        simp only [List.map_cons, List.count_cons]
        split_ifs <;> omega
      | some s =>
        dsimp only
        split_ifs with h2 h3 <;>
          · simp only [List.map_cons, List.count_cons]
            split_ifs <;> omega

theorem classify_not_occ (now itv : Int) (occ : List String) (sc : Scores)
    (input : List Node) (n : Node)
    (h : n ∈ (classifyNodes now itv occ sc input).1
      ∨ n ∈ (classifyNodes now itv occ sc input).2.1
      ∨ n ∈ (classifyNodes now itv occ sc input).2.2) :
    nodeKey n ∉ occ := by
  induction input with
  | nil => simp [classifyNodes] at h
  | cons m rest ih =>
    simp only [classifyNodes] at h
    split_ifs at h with h1
    · exact ih h
    · cases hsc : scoresGet sc (nodeKey m) with
      | none =>
        rw [hsc] at h
        dsimp only at h
        rcases h with h | h | h
        · exact ih (Or.inl h)
        · rcases List.mem_cons.mp h with rfl | h
          · exact h1
          · exact ih (Or.inr (Or.inl h))
        · exact ih (Or.inr (Or.inr h))
      | some s =>
        rw [hsc] at h
        dsimp only at h
        split_ifs at h with h2 h3
        · rcases h with h | h | h
          · exact ih (Or.inl h)
          · rcases List.mem_cons.mp h with rfl | h
            · exact h1
            · exact ih (Or.inr (Or.inl h))
          · exact ih (Or.inr (Or.inr h))
        · rcases h with h | h | h
          · rcases List.mem_cons.mp h with rfl | h
            · exact h1
            · exact ih (Or.inl h)
          · exact ih (Or.inr (Or.inl h))
          · exact ih (Or.inr (Or.inr h))
        · rcases h with h | h | h
          · exact ih (Or.inl h)
          · exact ih (Or.inr (Or.inl h))
          · rcases List.mem_cons.mp h with rfl | h
            · exact h1
            · exact ih (Or.inr (Or.inr h))

theorem sortByLatency_perm (sc : Scores) (l : List Node) :
    (sortByLatency sc l).Perm l :=
  List.perm_insertionSort _ l

theorem appendOk_spec (oracle : Node → Option Int) (needed : Nat) :
    ∀ (nodes ready : List Node) (filled : Nat),
      ∃ ex, (appendOk oracle needed nodes ready filled).1 = ready ++ ex ∧
        ex.Sublist nodes := by
  intro nodes
  induction nodes with
  | nil =>
    intro ready filled
    exact ⟨[], by simp [appendOk], List.Sublist.refl _⟩
  | cons n rest ih =>
    intro ready filled
    simp only [appendOk]
    split_ifs with h
    · obtain ⟨ex, heq, hsub⟩ := ih (ready ++ [n]) (filled + 1)
      refine ⟨n :: ex, ?_, List.Sublist.cons₂ n hsub⟩
      rw [heq, List.append_assoc]
      rfl
    · obtain ⟨ex, heq, hsub⟩ := ih ready filled
      exact ⟨ex, heq, hsub.cons n⟩

theorem readyInv_mk (st st' : PoolState) (extra : List Node)
    (hslots : st'.slots = st.slots)
    (hready : st'.readyNodes.Perm (st.readyNodes ++ extra))
    (hnodup : ∀ k, (extra.map nodeKey).count k ≤ 1)
    (hocc : ∀ n ∈ extra,
      nodeKey n ∉ st.readyNodes.map nodeKey ∧ nodeKey n ∉ aliveKeys st.slots)
    (hinv : readyInv st) : readyInv st' := by
  obtain ⟨hnd, hdisj⟩ := hinv
  have hperm : (readyKeys st').Perm (readyKeys st ++ extra.map nodeKey) := by
    simpa [readyKeys, List.map_append] using hready.map nodeKey
  constructor
  · rw [List.nodup_iff_count_le_one]
    intro k
    rw [hperm.count_eq, List.count_append]
    by_cases hx : 0 < (extra.map nodeKey).count k
    · obtain ⟨n, hn, rfl⟩ := List.mem_map.mp (List.count_pos_iff.mp hx)
      have h0 : (readyKeys st).count (nodeKey n) = 0 :=
        List.count_eq_zero.mpr (hocc n hn).1
      have h1 := hnodup (nodeKey n)
      omega
    · have h0 : (extra.map nodeKey).count k = 0 := by omega
      have h1 := List.nodup_iff_count_le_one.mp hnd k
      omega
  · intro k hk
    rw [hperm.mem_iff, List.mem_append] at hk
    rw [hslots]
    rcases hk with hk | hk
    · exact hdisj k hk
    · obtain ⟨n, hn, rfl⟩ := List.mem_map.mp hk
      exact (hocc n hn).2

theorem readyInv_fill (now : Int) (oracle : Node → Option Int) (st : PoolState)
    (needed startIndex : Nat)
    (hnodup : (st.allNodes.map nodeKey).Nodup)
    (hinv : readyInv st) :
    readyInv (fillReadyPool now oracle st needed startIndex) := by
  unfold fillReadyPool
  dsimp only
  set occ := st.readyNodes.map nodeKey ++ aliveKeys st.slots with hocceq
  set cl := classifyNodes now st.pretestInterval occ st.scores
    (st.allNodes.rotate startIndex) with hcleq
  have hrotnd : ((st.allNodes.rotate startIndex).map nodeKey).Nodup :=
    (((List.rotate_perm st.allNodes startIndex).map nodeKey).nodup_iff).mpr hnodup
  have hcnt : ∀ k, (cl.1.map nodeKey).count k + (cl.2.1.map nodeKey).count k
      + (cl.2.2.map nodeKey).count k ≤ 1 := by
    intro k
    have h1 := classify_count now st.pretestInterval occ st.scores
      (st.allNodes.rotate startIndex) k
    have h2 := List.nodup_iff_count_le_one.mp hrotnd k
    rw [← hcleq] at h1
    omega
  have hoccmem : ∀ n, (n ∈ cl.1 ∨ n ∈ cl.2.1 ∨ n ∈ cl.2.2) →
      nodeKey n ∉ st.readyNodes.map nodeKey ∧ nodeKey n ∉ aliveKeys st.slots := by
    intro n hn
    have h := classify_not_occ now st.pretestInterval occ st.scores
      (st.allNodes.rotate startIndex) n (by rw [← hcleq]; exact hn)
    rw [hocceq] at h
    exact ⟨fun hc => h (List.mem_append.mpr (Or.inl hc)),
           fun hc => h (List.mem_append.mpr (Or.inr hc))⟩
  set t1s := sortByLatency st.scores cl.1 with ht1s
  have ht1cnt : ∀ k, ((t1s.take needed).map nodeKey).count k
      ≤ (cl.1.map nodeKey).count k := by
    intro k
    have h1 := ((List.take_sublist needed t1s).map nodeKey).count_le k
    have h2 := ((sortByLatency_perm st.scores cl.1).map nodeKey).count_eq k
    rw [← ht1s] at h2
    omega
  have ht1mem : ∀ n ∈ t1s.take needed, n ∈ cl.1 := fun n hn =>
    (sortByLatency_perm st.scores cl.1).mem_iff.mp
      (by rw [← ht1s]; exact List.mem_of_mem_take hn)
  split
  · exact readyInv_mk st _ (t1s.take needed) rfl (sortByLatency_perm _ _)
      (fun k => le_trans (ht1cnt k) (by have := hcnt k; omega))
      (fun n hn => hoccmem n (Or.inl (ht1mem n hn))) hinv
  · rename_i hshort1
    set filled1 := min needed t1s.length with hfilled1
    set toTest := cl.2.1.take (min cl.2.1.length ((needed - filled1) * 3)) with htoTest
    set ready1 := st.readyNodes ++ t1s.take needed with hready1
    obtain ⟨ex2, hex2eq, hex2sub⟩ := appendOk_spec oracle needed toTest ready1 filled1
    have hex2cnt : ∀ k, (ex2.map nodeKey).count k ≤ (cl.2.1.map nodeKey).count k := by
      intro k
      have h1 := (hex2sub.map nodeKey).count_le k
      have h2 := ((List.take_sublist (min cl.2.1.length ((needed - filled1) * 3))
        cl.2.1).map nodeKey).count_le k
      rw [← htoTest] at h2
      omega
    have hex2mem : ∀ n ∈ ex2, n ∈ cl.2.1 := fun n hn => by
      have h1 := hex2sub.subset hn
      rw [htoTest] at h1
      exact List.mem_of_mem_take h1
    split
    · refine readyInv_mk st _ (t1s.take needed ++ ex2) rfl ?_ ?_ ?_ hinv
      · refine (sortByLatency_perm _ _).trans ?_
        rw [hex2eq, hready1, List.append_assoc]
      · intro k
        rw [List.map_append, List.count_append]
        have h1 := ht1cnt k
        have h2 := hex2cnt k
        have h3 := hcnt k
        omega
      · intro n hn
        rcases List.mem_append.mp hn with hn | hn
        · exact hoccmem n (Or.inl (ht1mem n hn))
        · exact hoccmem n (Or.inr (Or.inl (hex2mem n hn)))
    · rename_i hshort2
      set sc2 := toTest.foldl (applyTest now oracle) st.scores with hsc2
      set t3s := List.insertionSort
        (fun a b => failCountOf sc2 a ≤ failCountOf sc2 b) cl.2.2 with ht3s
      set filled2 := (appendOk oracle needed toTest ready1 filled1).2 with hfilled2
      set toRetry := t3s.take (min t3s.length ((needed - filled2) * 2)) with htoRetry
      obtain ⟨ex3, hex3eq, hex3sub⟩ := appendOk_spec oracle needed toRetry
        (appendOk oracle needed toTest ready1 filled1).1 filled2
      have hex3cnt : ∀ k, (ex3.map nodeKey).count k ≤ (cl.2.2.map nodeKey).count k := by
        intro k
        have h1 := (hex3sub.map nodeKey).count_le k
        have h2 := ((List.take_sublist (min t3s.length ((needed - filled2) * 2))
          t3s).map nodeKey).count_le k
        rw [← htoRetry] at h2
        have h3 := ((List.perm_insertionSort
          (fun a b => failCountOf sc2 a ≤ failCountOf sc2 b) cl.2.2).map nodeKey).count_eq k
        rw [← ht3s] at h3
        omega
      have hex3mem : ∀ n ∈ ex3, n ∈ cl.2.2 := fun n hn => by
        have h1 := hex3sub.subset hn
        rw [htoRetry] at h1
        have h2 := List.mem_of_mem_take h1
        rw [ht3s] at h2
        exact (List.perm_insertionSort _ cl.2.2).mem_iff.mp h2
      refine readyInv_mk st _ (t1s.take needed ++ ex2 ++ ex3) rfl ?_ ?_ ?_ hinv
      · refine (sortByLatency_perm _ _).trans ?_
        rw [hex3eq, hex2eq, hready1, List.append_assoc, List.append_assoc,
          List.append_assoc]
      · intro k
        simp only [List.map_append, List.count_append]
        have h1 := ht1cnt k
        have h2 := hex2cnt k
        have h3 := hex3cnt k
        have h4 := hcnt k
        omega
      · intro n hn
        rcases List.mem_append.mp hn with hn | hn
        · rcases List.mem_append.mp hn with hn | hn
          · exact hoccmem n (Or.inl (ht1mem n hn))
          · exact hoccmem n (Or.inr (Or.inl (hex2mem n hn)))
        · exact hoccmem n (Or.inr (Or.inr (hex3mem n hn)))

theorem mem_aliveKeys (slots : List ProxySlot) (k : String) :
    k ∈ aliveKeys slots ↔
      ∃ s ∈ slots, s.alive = true ∧ s.node.map nodeKey = some k := by
  unfold aliveKeys
  rw [List.mem_filterMap]
  constructor
  · rintro ⟨s, hs, hf⟩
    by_cases ha : s.alive = true
    · rw [if_pos ha] at hf
      exact ⟨s, hs, ha, hf⟩
    · rw [if_neg ha] at hf
      cases hf
  · rintro ⟨s, hs, ha, hf⟩
    refine ⟨s, hs, ?_⟩
    rw [if_pos ha]
    exact hf

theorem readyInv_bind (st : PoolState) (n : Node) (j : Nat)
    (hinv : readyInv st)
    (hn : ∀ k ∈ readyKeys st, k ≠ nodeKey n) :
    readyInv (bindSlot st j n) := by
  obtain ⟨hnd, hdisj⟩ := hinv
  refine ⟨hnd, ?_⟩
  intro k hk hkal
  rw [mem_aliveKeys] at hkal
  obtain ⟨s, hsmem, hsal, hsnode⟩ := hkal
  rcases List.mem_or_eq_of_mem_set hsmem with hs | rfl
  · exact hdisj k hk ((mem_aliveKeys _ _).mpr ⟨s, hs, hsal, hsnode⟩)
  · simp only [Option.map_some', Option.some.injEq] at hsnode
    exact hn k hk hsnode.symm

theorem readyInv_nilReady (st' : PoolState) (h : st'.readyNodes = []) :
    readyInv st' := by
  constructor
  · rw [readyKeys, h]
    exact List.nodup_nil
  · intro k hk
    rw [readyKeys, h] at hk
    simp at hk

theorem readyInv_nextNode (now : Int) (st : PoolState) (pv : Bool)
    (hinv : readyInv st) :
    readyInv (nextNode now st pv).1 ∧
    (∀ n, (nextNode now st pv).2 = some n →
      ∀ j, readyInv (bindSlot (nextNode now st pv).1 j n)) := by
  unfold nextNode
  dsimp only
  split
  · exact ⟨hinv, fun n hn j => by cases hn⟩
  · rename_i hane
    cases hready : st.readyNodes with
    | nil =>
      simp only [popReadyLoop, List.length_nil]
      split_ifs with h1 <;>
        · refine ⟨readyInv_nilReady _ rfl, ?_⟩
          intro n hn j
          refine readyInv_bind _ n j (readyInv_nilReady _ rfl) ?_
          intro k hk
          simp [readyKeys] at hk
    | cons m rest =>
      have hmkey : nodeKey m ∉ aliveKeys st.slots := by
        refine hinv.2 (nodeKey m) ?_
        rw [readyKeys, hready]
        exact List.mem_map_of_mem nodeKey (List.mem_cons_self m rest)
      simp only [List.length_cons, popReadyLoop]
      rw [if_neg hmkey]
      dsimp only
      have hnd : (nodeKey m :: rest.map nodeKey).Nodup := by
        have := hinv.1
        rw [readyKeys, hready] at this
        simpa using this
      have hrestinv : readyInv { st with readyNodes := rest } := by
        constructor
        · exact (List.nodup_cons.mp hnd).2
        · intro k hk
          refine hinv.2 k ?_
          rw [readyKeys, hready]
          simpa [readyKeys] using List.mem_cons_of_mem _ hk
      refine ⟨hrestinv, ?_⟩
      rintro n hn j
      obtain rfl : m = n := by injection hn
      refine readyInv_bind _ _ j hrestinv ?_
      intro k hk hkey
      have h1 := (List.nodup_cons.mp hnd).1
      rw [hkey] at hk
      exact h1 hk

/-- Claim C8 (counterexample): nothing deduplicates the catalog by
`host:port`, so a subscription carrying two nodes with the same key
(different labels) is representable; starting from an empty — hence
invariant-satisfying — ready queue, one replenishment classifies both
as fresh-verified T1 and drains both into the queue, which then holds
the same key twice. -/
theorem C8_counterexample :
    readyInv dupPool ∧
    readyKeys (fillReadyPool 0 (fun _ => none) dupPool 2 0) = ["h:1", "h:1"] ∧
    ¬ readyInv (fillReadyPool 0 (fun _ => none) dupPool 2 0) := by
  refine ⟨by decide, by decide, ?_⟩
  intro h
  have := h.1
  rw [show readyKeys (fillReadyPool 0 (fun _ => none) dupPool 2 0)
    = ["h:1", "h:1"] from by decide] at this
  simp at this

/-- Claim C8 (amended): provided the catalog itself carries no two
nodes with the same `host:port` key, the hot-standby invariant — no two
ready-queue entries share a key and no entry is bound to a live slot —
holds after every replenishment cycle (`_fill_ready_pool`, whatever the
test oracle, shortage and scan offset), and is preserved by a
`_next_node` pop followed by binding the returned node to any slot. -/
theorem C8_amended (st : PoolState)
    (hnodup : (st.allNodes.map nodeKey).Nodup) (hinv : readyInv st) :
    (∀ (now : Int) (oracle : Node → Option Int) (needed startIndex : Nat),
      readyInv (fillReadyPool now oracle st needed startIndex)) ∧
    (∀ (now : Int) (pv : Bool),
      readyInv (nextNode now st pv).1 ∧
      ∀ n, (nextNode now st pv).2 = some n →
        ∀ j, readyInv (bindSlot (nextNode now st pv).1 j n)) :=
  ⟨fun now oracle needed startIndex =>
    readyInv_fill now oracle st needed startIndex hnodup hinv,
   fun now pv => readyInv_nextNode now st pv hinv⟩

/-- Claim C8 witness: a duplicate-free two-node catalog; after one
replenishment the queue satisfies the invariant, and popping from it
and binding the node keeps the invariant. -/
theorem C8_witness :
    readyInv (fillReadyPool 0 (fun _ => none) okPool 2 0) ∧
    readyInv (nextNode 0 okPool true).1 :=
  ⟨(C8_amended okPool (by decide) (by decide)).1 0 (fun _ => none) 2 0,
   ((C8_amended okPool (by decide) (by decide)).2 0 true).1⟩

/-! ## C4 — the direct exit at slot 0 -/

theorem proxy_pruneLogins (now : Int) (e : Exit) :
    (e.pruneLogins now).proxy_url = e.proxy_url := rfl

theorem proxyAt_prune (now : Int) (d : Dispatcher) (i j : Nat) :
    ((d.updExit i (Exit.pruneLogins now)).getExit j).proxy_url = (d.getExit j).proxy_url :=
  proxyAt_updExit d i j _ (proxy_pruneLogins now)

theorem proxyAt_reserveRecord (now : Int) (d : Dispatcher) (i j : Nat) :
    ((d.updExit i (fun e => (e.reserve_login).record_request now)).getExit j).proxy_url
      = (d.getExit j).proxy_url :=
  proxyAt_updExit d i j _ (fun _ => rfl)

theorem proxyAt_record (now : Int) (d : Dispatcher) (i j : Nat) :
    ((d.updExit i (Exit.record_request now)).getExit j).proxy_url
      = (d.getExit j).proxy_url :=
  proxyAt_updExit d i j _ (fun _ => rfl)

theorem proxyAt_foldl_prune (now : Int) (hs : List Nat) (d : Dispatcher) (j : Nat) :
    ((hs.foldl (fun acc i => acc.updExit i (Exit.pruneLogins now)) d).getExit j).proxy_url
      = (d.getExit j).proxy_url := by
  induction hs generalizing d with
  | nil => rfl
  | cons a as ih =>
    simpa [proxyAt_prune] using ih (d.updExit a (Exit.pruneLogins now))

theorem proxy0_pick_login (now : Int) (d : Dispatcher) :
    ((Dispatcher.pick_login_exit now d).1.getExit 0).proxy_url = (d.getExit 0).proxy_url := by
  unfold Dispatcher.pick_login_exit
  dsimp only
  split_ifs <;> simp [proxyAt_reserveRecord, proxyAt_foldl_prune]

theorem length_pick_login (now : Int) (d : Dispatcher) :
    (Dispatcher.pick_login_exit now d).1.exits.length = d.exits.length := by
  unfold Dispatcher.pick_login_exit
  dsimp only
  split_ifs <;> simp [length_updExit, length_foldl_updExit]

theorem proxy0_pick_api (now : Int) (d : Dispatcher) :
    ((Dispatcher.pick_api_exit now d).1.getExit 0).proxy_url = (d.getExit 0).proxy_url := by
  unfold Dispatcher.pick_api_exit
  dsimp only
  split_ifs <;> simp [proxyAt_record]

theorem length_pick_api (now : Int) (d : Dispatcher) :
    (Dispatcher.pick_api_exit now d).1.exits.length = d.exits.length := by
  unfold Dispatcher.pick_api_exit
  dsimp only
  split_ifs <;> simp [length_updExit]

theorem proxy0_forward (now : Int) (d : Dispatcher) (i : Nat) (o1 o2 : Dispatcher.Outcome) :
    ((Dispatcher.forward now d i o1 o2).2.1.getExit 0).proxy_url
      = (d.getExit 0).proxy_url := by
  unfold Dispatcher.forward
  cases o1 with
  | resp s =>
    dsimp only
    simp only [proxyAt_decA, proxyAt_alert, proxyAt_incA, proxyAt_wait]
  | cancelled =>
    dsimp only
    simp only [proxyAt_decA, proxyAt_incA, proxyAt_wait]
  | err =>
    dsimp only
    cases o2 <;>
      · split_ifs <;>
          simp only [proxyAt_decA, proxyAt_alert, proxyAt_incA, proxyAt_wait, proxyAt_recErr]

theorem length_forward (now : Int) (d : Dispatcher) (i : Nat) (o1 o2 : Dispatcher.Outcome) :
    (Dispatcher.forward now d i o1 o2).2.1.exits.length = d.exits.length := by
  unfold Dispatcher.forward
  cases o1 with
  | resp s =>
    dsimp only
    simp only [length_updExit]
  | cancelled =>
    dsimp only
    simp only [length_updExit]
  | err =>
    dsimp only
    cases o2 <;>
      · split_ifs <;> simp only [length_updExit]

/-- Claim C4 (counterexample): "normal flow never freezes the direct
exit" fails — a forward through the direct exit itself that receives a
403 advances slot 0's `_frozen_until` from 0 to 60, leaving the direct
exit frozen. -/
theorem C4_counterexample :
    (initDispatcher.getExit 0).frozen_until = 0 ∧
    ((Dispatcher.forward 0 initDispatcher 0 (Dispatcher.Outcome.resp 403)
      Dispatcher.Outcome.err).2.1.getExit 0).frozen_until = 60 ∧
    Exit.is_frozen 1 ((Dispatcher.forward 0 initDispatcher 0 (Dispatcher.Outcome.resp 403)
      Dispatcher.Outcome.err).2.1.getExit 0) = true := by
  decide

/-- Claim C4 (amended): the direct exit always exists at slot 0 — it is
there at construction, every normal-flow operation (configuration,
selection, forwarding, login completion, admin setters) keeps a
proxy-less exit at slot 0, and `remove_exit` rejects slot 0 outright —
so it is always available as the fallback; but normal flow can freeze
it: a 403 received on a request forwarded through the direct exit
advances its `_frozen_until` like any other exit's (see the
counterexample), which excludes it from healthy selection (though
fallback still returns it). -/
theorem directAtZero_of (d X : Dispatcher)
    (hlen : X.exits.length = d.exits.length)
    (hp : (X.getExit 0).proxy_url = (d.getExit 0).proxy_url)
    (h : directAtZero d) : directAtZero X := by
  obtain ⟨hne, hp0⟩ := h
  refine ⟨?_, hp.trans hp0⟩
  intro hc
  rw [hc] at hlen
  exact hne (List.length_eq_zero.mp hlen.symm)

theorem C4_amended :
    directAtZero initDispatcher ∧
    (∀ (d : Dispatcher) (op : AdminOp), directAtZero d → directAtZero (AdminOp.step d op)) ∧
    (∀ d : Dispatcher, d.remove_exit 0 = (d, false)) := by
  refine ⟨by decide, ?_, ?_⟩
  · rintro d op ⟨hne, hp0⟩
    cases op with
    | addSocks name port =>
      cases hx : d.exits with
      | nil => exact absurd hx hne
      | cons x xs =>
        constructor
        · simp [AdminOp.step, Dispatcher.add_socks5]
        · have hget : (d.add_socks5 name port).1.getExit 0 = d.getExit 0 := by
            simp [Dispatcher.add_socks5, Dispatcher.getExit, hx]
          show ((d.add_socks5 name port).1.getExit 0).proxy_url = none
          rw [hget]
          exact hp0
    | removeExit i =>
      simp only [AdminOp.step, Dispatcher.remove_exit]
      split_ifs with h
      · exact ⟨hne, hp0⟩
      · push_neg at h
        obtain ⟨hi0, hilen⟩ := h
        cases hx : d.exits with
        | nil => exact absurd hx hne
        | cons x xs =>
          cases i with
          | zero => exact absurd rfl hi0
          | succ i' =>
            refine ⟨by simp [hx], ?_⟩
            simp only [hx, List.eraseIdx_cons_succ]
            simp only [Dispatcher.getExit, hx] at hp0
            simpa [Dispatcher.getExit] using hp0
    | pickLogin now =>
      exact directAtZero_of d _ (length_pick_login now d) (proxy0_pick_login now d) ⟨hne, hp0⟩
    | pickApi now =>
      exact directAtZero_of d _ (length_pick_api now d) (proxy0_pick_api now d) ⟨hne, hp0⟩
    | fwd now i o1 o2 =>
      exact directAtZero_of d _ (length_forward now d i o1 o2)
        (proxy0_forward now d i o1 o2) ⟨hne, hp0⟩
    | confirmLogin i now =>
      exact directAtZero_of d _ (length_updExit d i (Exit.confirm_login now))
        (proxyAt_updExit d i 0 _ (fun _ => rfl)) ⟨hne, hp0⟩
    | cancelLogin i =>
      exact directAtZero_of d _ (length_updExit d i Exit.cancel_login)
        (proxyAt_updExit d i 0 _ (fun _ => rfl)) ⟨hne, hp0⟩
    | setRateLimit i v =>
      simp only [AdminOp.step, Dispatcher.set_rate_limit]
      split_ifs with h
      · exact directAtZero_of d _ (length_updExit d i _)
          (proxyAt_updExit d i 0 _ (fun _ => rfl)) ⟨hne, hp0⟩
      · exact ⟨hne, hp0⟩
    | setMaxLogin v =>
      simp only [AdminOp.step, Dispatcher.set_max_login_per_min]
      split_ifs with h
      · exact ⟨hne, hp0⟩
      · exact ⟨hne, hp0⟩
  · intro d
    unfold Dispatcher.remove_exit
    rw [if_pos (Or.inl rfl)]

/-- Claim C4 witness: the amended theorem applied to removing the
tunnel from the concrete two-exit dispatcher. -/
theorem C4_witness :
    directAtZero (AdminOp.step tunnelDisp (AdminOp.removeExit 1)) ∧
    tunnelDisp.remove_exit 0 = (tunnelDisp, false) :=
  ⟨C4_amended.2.1 tunnelDisp (AdminOp.removeExit 1) (by constructor <;> decide),
   C4_amended.2.2 tunnelDisp⟩

/-- Claim C5 witness: concrete dispatcher with one tunnel; the tunnel
attempt fails, the direct retry succeeds with a 200. -/
theorem C5_witness :
    (Dispatcher.forward 0 tunnelDisp 1 Dispatcher.Outcome.err (Dispatcher.Outcome.resp 200)).2.2.2
      = [1, 0] ∧
    (Dispatcher.forward 0 tunnelDisp 1 Dispatcher.Outcome.err (Dispatcher.Outcome.resp 200)).2.2.1
      = Dispatcher.FwdResult.ok 200 := by
  have h := (C5_transport_failure 0 tunnelDisp 1 (Dispatcher.Outcome.resp 200)
    (by decide) (by decide)).1 (by decide)
  exact ⟨h.1, h.2.2.1 200 rfl⟩

